import Mathlib

/-!
# Verification of the deduplicating tabular-append scrapers

Shallow embedding of the dedup/append core of the repository
(`SwiggyMain.py`, `ZomatoMain.py`, `complaintsz.py`, `reviews.py`,
`reviewsz.py`, `complaints.py`) and proofs about it.

Modelling conventions:
* Python strings are Lean `String`s (operations are implemented
  structurally over `String.data` so that closed terms reduce).
* A scraped/parsed record (a Python dict produced from JSON) is an
  association list `List (String × String)`; `dget d k` is
  `d.get(k, "")`.  Field values are modelled as strings, matching the
  extraction prompts (which request string fields); the defensive
  list-join for `"Item Ordered"` in `reviews.append_to_sheet` is the
  identity on string values and is elided.
* The tabular store is the list of its rows (`List (List String)` for
  the complaint/review sheets, `List (List Cell)` for the
  dashboard-metric sheets whose appended cells are typed).  The first
  row is the header, per the store contract.
* The SHA-256 digest is an uninterpreted parameter
  `sha256 : String → String`: every theorem below holds for an
  arbitrary digest function.
* Fallible operations (the Gemini service, `json.loads`, the sheet
  connection, a single `append_row` call) are modelled with
  `Except`/`Option`/a success flag; an exception caught by a
  `try/except` in the source is an explicit branch here.
-/

/- ------------------------------------------------------------------ -/
/- Python string primitives, implemented structurally                  -/
/- ------------------------------------------------------------------ -/

/-- ASCII whitespace stripped by Python's `str.strip()` (the inputs in
this repository are ASCII-spaced). -/
def isPySpace (c : Char) : Bool :=
  c = ' ' || c = '\t' || c = '\n' || c = '\r' || c = '\x0b' || c = '\x0c'

/-- Drop leading whitespace from a character list. -/
def dropWS : List Char → List Char
  | [] => []
  | c :: cs => if isPySpace c then dropWS cs else c :: cs

/-- Python `str.strip()`: drop leading and trailing whitespace. -/
def pstrip (s : String) : String :=
  ⟨(dropWS ((dropWS s.data).reverse)).reverse⟩

/-- Python `dict.get(k, "")` on an association list. -/
def dget (d : List (String × String)) (k : String) : String :=
  match d.find? (fun p => p.1 == k) with
  | some p => p.2
  | none => ""

/-- Python `d[k] = v` on an association list (update in place if the
key exists, else append; insertion-order semantics of Python dicts). -/
def dset (d : List (String × String)) (k v : String) : List (String × String) :=
  if d.any (fun p => p.1 == k) then d.map (fun p => if p.1 == k then (k, v) else p)
  else d ++ [(k, v)]

/-- Does `pat` occur at the head of `l`? -/
def headMatches : List Char → List Char → Bool
  | [], _ => true
  | _ :: _, [] => false
  | a :: ps, b :: ls => a == b && headMatches ps ls

/-- Left-to-right, non-overlapping replacement of `pat` by `rep`
(Python `str.replace`), fuelled by the input length so that the
definition is structural and closed terms reduce. -/
def replaceAux (pat rep : List Char) : Nat → List Char → List Char
  | 0, l => l
  | f + 1, l =>
    match l with
    | [] => []
    | c :: cs =>
      if pat ≠ [] && headMatches pat l then rep ++ replaceAux pat rep f (l.drop pat.length)
      else c :: replaceAux pat rep f cs

/-- Python `s.replace(pat, rep)`. -/
def pyReplace (s pat rep : String) : String :=
  ⟨replaceAux pat.data rep.data s.data.length s.data⟩

/-- Python `s.lower()` (ASCII). -/
def pyLower (s : String) : String := ⟨s.data.map Char.toLower⟩

/-- Value of a list of ASCII digits read in base 10. -/
def digitsVal (cs : List Char) : Nat :=
  cs.foldl (fun a c => a * 10 + (c.toNat - 48)) 0

/-- Split a character list at its first `'.'` (used to read a float
literal made of digits and one dot). -/
def intFracSplit : List Char → List Char × List Char
  | [] => ([], [])
  | c :: cs => if c = '.' then ([], cs) else
      let p := intFracSplit cs
      (c :: p.1, p.2)

/-- The value Python's `float()` gives to a string of ASCII digits
containing at most one `'.'`. -/
def ratOfDigitsDot (cs : List Char) : Rat :=
  if ('.' : Char) ∈ cs then
    let p := intFracSplit cs
    (digitsVal p.1 : Rat) + (digitsVal p.2 : Rat) / ((10 : Rat) ^ p.2.length)
  else (digitsVal cs : Rat)

/-- Python `float()` restricted to strings of ASCII digits and dots
(the only strings passed to it by `convert_value`): it succeeds iff the
string has at least one digit and at most one dot. -/
def pyFloatOfDigitsDot? (s : String) : Option Rat :=
  if s.data.any Char.isDigit && s.data.count '.' ≤ 1
      && s.data.all (fun c => c.isDigit || c = '.') then
    some (ratOfDigitsDot s.data)
  else none

/-- Python `int()` on the all-digit strings produced by
`convert_value`'s stripping step. -/
def pyIntOfDigits? (s : String) : Option Int :=
  if s ≠ "" && s.data.all Char.isDigit then some (digitsVal s.data : Int) else none

/-- Python `int()` on a general string: optional surrounding
whitespace, optional sign, then a non-empty digit run. -/
def pyIntOfString? (s : String) : Option Int :=
  match (pstrip s).data with
  | '-' :: ds => if ds ≠ [] && ds.all Char.isDigit then some (-(digitsVal ds : Int)) else none
  | '+' :: ds => if ds ≠ [] && ds.all Char.isDigit then some ((digitsVal ds : Int)) else none
  | ds => if ds ≠ [] && ds.all Char.isDigit then some ((digitsVal ds : Int)) else none

/-- Python `float()` on a general string as it occurs in the Zomato
writer: optional surrounding whitespace, optional sign, then digits
with at most one dot (the scraped values never use exponent forms,
which are therefore not modelled). -/
def pyFloatOfString? (s : String) : Option Rat :=
  match (pstrip s).data with
  | '-' :: core =>
    if core.any Char.isDigit && core.count '.' ≤ 1
        && core.all (fun c => c.isDigit || c = '.') then
      some (-(ratOfDigitsDot core))
    else none
  | '+' :: core =>
    if core.any Char.isDigit && core.count '.' ≤ 1
        && core.all (fun c => c.isDigit || c = '.') then
      some (ratOfDigitsDot core)
    else none
  | core =>
    if core.any Char.isDigit && core.count '.' ≤ 1
        && core.all (fun c => c.isDigit || c = '.') then
      some (ratOfDigitsDot core)
    else none

/- ------------------------------------------------------------------ -/
/- Record Normalizer: SwiggyMain.convert_value                         -/
/- ------------------------------------------------------------------ -/

/-- `NormalizedValue`: the result type of `SwiggyMain.convert_value` —
an int, a float, or the missing sentinel `"N/A"`. -/
inductive PyNum
  | NA
  | i (n : Int)
  | f (q : Rat)
deriving DecidableEq, Repr

/-- Result of a Python block that may raise. -/
inductive PyExc (α : Type)
  | ok (v : α)
  | exn
deriving DecidableEq, Repr

/-- The `try:` block of `SwiggyMain.convert_value` (lines 275-290):
strip every character that is not an ASCII digit or a dot
(`re.sub(r'[^\d.]', '', str(val))`), then `float` if a dot remains,
else `int` if non-empty, else `"N/A"`.  `.exn` is a raised
`ValueError`. -/
def convert_value_try (val : String) : PyExc PyNum :=
  let cleaned : String := ⟨val.data.filter (fun c => c.isDigit || c = '.')⟩
  if ('.' : Char) ∈ cleaned.data then
    match pyFloatOfDigitsDot? cleaned with
    | some q => .ok (.f q)
    | none => .exn
  else
    if cleaned ≠ "" then
      match pyIntOfDigits? cleaned with
      | some n => .ok (.i n)
      | none => .exn
    else .ok .NA

/-- `SwiggyMain.convert_value`: the `"N/A"`/empty short-circuit, then
the `try:` block with `except (ValueError, TypeError): return "N/A"`. -/
def convert_value (val : String) : PyNum :=
  if val = "N/A" ∨ val = "" then .NA
  else
    match convert_value_try val with
    | .ok v => v
    | .exn => .NA

/-- The residue of a raw value after `convert_value`'s stripping step
(the characters that survive `re.sub(r'[^\d.]', '', val)`). -/
def residue (s : String) : List Char :=
  s.data.filter (fun c => c.isDigit || c = '.')

/-- Does a string contain an ASCII digit? -/
def hasDigit (s : String) : Bool := s.data.any Char.isDigit

/- ------------------------------------------------------------------ -/
/- Natural-Key Hasher (complaintsz.py, reviews.py, reviewsz.py)        -/
/- ------------------------------------------------------------------ -/

/-- Minimal JSON string escaping (backslash and quote), as in
`json.dumps` for the plain-text fields at hand. -/
def jsonEscape (s : String) : String :=
  ⟨s.data.foldr (fun c acc =>
      if c = '\\' then '\\' :: '\\' :: acc
      else if c = '"' then '\\' :: '"' :: acc
      else c :: acc) []⟩

/-- Insertion into a key-sorted association list. -/
def insertPairSorted : (String × String) → List (String × String) → List (String × String)
  | p, [] => [p]
  | p, q :: qs => if p.1 < q.1 then p :: q :: qs else q :: insertPairSorted p qs

/-- Sort an association list by key. -/
def sortPairs (d : List (String × String)) : List (String × String) :=
  d.foldr insertPairSorted []

/-- `json.dumps(d, sort_keys=True)` for a string-valued dict. -/
def jsonDumpSorted (d : List (String × String)) : String :=
  "\x7b" ++ String.intercalate ", "
      ((sortPairs d).map (fun p => "\"" ++ jsonEscape p.1 ++ "\": \"" ++ jsonEscape p.2 ++ "\""))
    ++ "\x7d"

/-- `complaintsz.generate_complaint_hash`: digest of the stripped
complaint ID, falling back to the stripped timestamp, falling back to a
digest of the sorted JSON dump of the whole record.  `sha256` is the
digest function, an arbitrary parameter of the model. -/
def generate_complaint_hash (sha256 : String → String)
    (parsed_complaint : List (String × String)) : String :=
  let complaint_id := pstrip (dget parsed_complaint "Complaint ID")
  let timestamp := pstrip (dget parsed_complaint "Timestamp")
  let unique_str := if complaint_id ≠ "" then complaint_id else timestamp
  if unique_str = "" then sha256 (jsonDumpSorted parsed_complaint)
  else sha256 unique_str

/-- `reviews.generate_review_hash`: digest of the stripped order ID,
falling back to the stripped timestamp (no whole-record fallback). -/
def generate_review_hash (sha256 : String → String)
    (parsed_review : List (String × String)) : String :=
  let order_id := pstrip (dget parsed_review "Order ID")
  let timestamp := pstrip (dget parsed_review "Timestamp")
  let unique_str := if order_id ≠ "" then order_id else timestamp
  sha256 unique_str

/-- `reviewsz.generate_order_hash`: digest of the order ID as given. -/
def generate_order_hash (sha256 : String → String) (order_id : String) : String :=
  sha256 order_id

/- ------------------------------------------------------------------ -/
/- Append Gate (complaintsz.append_complaint_to_sheet,                 -/
/- reviews.append_to_sheet)                                            -/
/- ------------------------------------------------------------------ -/

/-- What one Append-Gate invocation did (mirrors the log line each
branch prints). -/
inductive GateResult
  | rejectedEmptyKey   -- warning logged, record skipped
  | duplicate          -- duplicate logged, record skipped
  | appended           -- row appended, digest added to the index
  | writeFailed        -- append_row raised; caught by the except
deriving DecidableEq, Repr

/-- The row `complaintsz.append_complaint_to_sheet` appends (its fixed
column order, lines 125-135). -/
def complaint_row_data (parsed_complaint : List (String × String)) : List String :=
  [dget parsed_complaint "Outlet ID",
   dget parsed_complaint "Reason",
   dget parsed_complaint "Status",
   dget parsed_complaint "Refund Amount",
   dget parsed_complaint "Complaint ID",
   dget parsed_complaint "Timestamp",
   dget parsed_complaint "Description",
   dget parsed_complaint "Customer History",
   dget parsed_complaint "Customer Name"]

/-- `complaintsz.append_complaint_to_sheet` (lines 111-142).  The store
is the list of sheet rows; `seen_hashes` is the dedup index;
`appendOk` says whether the single `sheet.append_row` call succeeds (a
raised store error is caught by the function's `except`, leaving store
and index unchanged).  Returns the new store, the new index and what
happened. -/
def append_complaint_to_sheet (sha256 : String → String) (appendOk : Bool)
    (sheet : List (List String)) (parsed_complaint : List (String × String))
    (seen_hashes : List String) :
    List (List String) × List String × GateResult :=
  let complaint_id := pstrip (dget parsed_complaint "Complaint ID")
  if complaint_id = "" then (sheet, seen_hashes, .rejectedEmptyKey)
  else
    let complaint_hash := generate_complaint_hash sha256 parsed_complaint
    if complaint_hash ∈ seen_hashes then (sheet, seen_hashes, .duplicate)
    else
      if appendOk then
        (sheet ++ [complaint_row_data parsed_complaint],
         complaint_hash :: seen_hashes, .appended)
      else (sheet, seen_hashes, .writeFailed)

/-- The row `reviews.append_to_sheet` appends (lines 227-242; the
`"Item Ordered"` list-join is the identity on string values). -/
def review_row_data (parsed_review : List (String × String)) : List String :=
  [dget parsed_review "Order ID",
   dget parsed_review "Timestamp",
   dget parsed_review "Outlet",
   dget parsed_review "Item Ordered",
   dget parsed_review "Rating",
   dget parsed_review "Status",
   dget parsed_review "Customer Name",
   dget parsed_review "Customer Info",
   dget parsed_review "Total Orders (90d)",
   dget parsed_review "Order Value (90d)",
   dget parsed_review "Complaints (90d)",
   dget parsed_review "Delivery Remark",
   dget parsed_review "RID",
   dget parsed_review "Brand"]

/-- `reviews.append_to_sheet` (lines 211-249), same shape as the
complaints gate. -/
def append_to_sheet (sha256 : String → String) (appendOk : Bool)
    (sheet : List (List String)) (parsed_review : List (String × String))
    (seen_hashes : List String) :
    List (List String) × List String × GateResult :=
  let order_id := pstrip (dget parsed_review "Order ID")
  if order_id = "" then (sheet, seen_hashes, .rejectedEmptyKey)
  else
    let review_hash := generate_review_hash sha256 parsed_review
    if review_hash ∈ seen_hashes then (sheet, seen_hashes, .duplicate)
    else
      if appendOk then
        (sheet ++ [review_row_data parsed_review], review_hash :: seen_hashes, .appended)
      else (sheet, seen_hashes, .writeFailed)

/- ------------------------------------------------------------------ -/
/- Existing-Key Index Loader                                           -/
/- ------------------------------------------------------------------ -/

/-- The per-row digest extraction of the loader inlined in
`complaintsz.scrape_and_push_complaints` (lines 177-183): a row
contributes a digest iff it has more than 5 columns' worth of data up
to index 4 (`len(row) > 4`) and a non-empty stripped complaint ID; the
timestamp column is read as `""` when absent (`len(row) > 5`). -/
def complaint_row_hash? (sha256 : String → String) (row : List String) : Option String :=
  if row.length > 4 then
    let complaint_id_from_sheet := pstrip (row.getD 4 "")
    let timestamp_from_sheet := if row.length > 5 then pstrip (row.getD 5 "") else ""
    if complaint_id_from_sheet ≠ "" then
      some (generate_complaint_hash sha256
        [("Complaint ID", complaint_id_from_sheet), ("Timestamp", timestamp_from_sheet)])
    else none
  else none

/-- The Existing-Key Index Loader of `complaintsz.scrape_and_push_complaints`
(lines 174-184): `sheet.get_all_values()[1:]` skips the header, then
each row is hashed by `complaint_row_hash?`.  The Python code builds a
set; the model returns the list of digests, used only through
membership. -/
def load_complaint_hashes (sha256 : String → String)
    (all_values : List (List String)) : List String :=
  (all_values.drop 1).filterMap (complaint_row_hash? sha256)

/-- The per-row digest extraction of the loader inlined in
`reviews.click_and_extract_reviews` (lines 603-611): missing columns
are read as `""`; a row contributes a digest iff its stripped order ID
is non-empty. -/
def review_row_hash? (sha256 : String → String) (row : List String) : Option String :=
  let oid := pstrip (row.getD 0 "")
  let ts := pstrip (row.getD 1 "")
  if oid ≠ "" then
    some (generate_review_hash sha256 [("Order ID", oid), ("Timestamp", ts)])
  else none

/-- The Existing-Key Index Loader of `reviews.click_and_extract_reviews`
(lines 601-611). -/
def load_review_hashes (sha256 : String → String)
    (all_values : List (List String)) : List String :=
  (all_values.drop 1).filterMap (review_row_hash? sha256)

/-- `complaintsz.init_gsheet` (lines 21-32): tries to open the
worksheet and re-raises on failure (`raise` in the except branch), so a
store-connection error propagates to the caller. -/
def init_gsheet (conn : Except Unit (List (List String))) :
    Except Unit (List (List String)) :=
  match conn with
  | .ok sheet => .ok sheet
  | .error e => .error e

/-- The dedup baseline computed at the start of
`complaintsz.scrape_and_push_complaints` (lines 172-184): `init_gsheet`
is called outside any `try`, so a store error aborts the run before
any scraping; otherwise the index is loaded from the sheet. -/
def complaints_run_baseline (sha256 : String → String)
    (conn : Except Unit (List (List String))) : Except Unit (List String) :=
  match init_gsheet conn with
  | .error e => .error e
  | .ok sheet => .ok (load_complaint_hashes sha256 sheet)

/-- `reviewsz.get_existing_order_hashes` (lines 46-53): hashes the
unstripped order-ID column values past the header whose stripped form
is non-empty; **on a store error it catches the exception, prints, and
returns the empty set**, so the caller proceeds with an empty dedup
baseline. -/
def get_existing_order_hashes (sha256 : String → String)
    (col_values : Except Unit (List String)) : List String :=
  match col_values with
  | .ok order_ids =>
    (order_ids.drop 1).filterMap
      (fun order_id => if pstrip order_id ≠ "" then some (generate_order_hash sha256 order_id) else none)
  | .error _ => []

/-- What the review loop of `reviewsz.scrape_and_push_reviews`
(lines 269-276) decides for one extracted review. -/
inductive RvzAction
  | skippedNoId
  | skippedDup
  | pushed
deriving DecidableEq, Repr

/-- The decision step of `reviewsz.scrape_and_push_reviews`
(lines 269-276): strip the extracted order ID; skip if empty; skip if
its digest is in the loaded index; otherwise push the row. -/
def reviewsz_review_action (sha256 : String → String) (order_id_raw : String)
    (existing_hashes : List String) : RvzAction :=
  let order_id := pstrip order_id_raw
  if order_id = "" then .skippedNoId
  else if generate_order_hash sha256 order_id ∈ existing_hashes then .skippedDup
  else .pushed

/- ------------------------------------------------------------------ -/
/- One append pass over a record list                                  -/
/- ------------------------------------------------------------------ -/

/-- Sequential processing of a run's record list through an Append
Gate (the per-record loops of `scrape_and_push_complaints` and
`click_and_extract_reviews`): the store and dedup index are threaded
through the gate record by record. -/
def passFold {Rec Row : Type}
    (gate : List Row → Rec → List String → List Row × List String × GateResult) :
    List Rec → List Row × List String → List Row × List String
  | [], p => p
  | c :: cs, p =>
    let r := gate p.1 c p.2
    passFold gate cs (r.1, r.2.1)

/-- Does a parsed complaint pass the gate's key check? -/
def complaint_keyOk (c : List (String × String)) : Bool :=
  !(pstrip (dget c "Complaint ID") == "")

/-- Does a parsed review pass the gate's key check? -/
def review_keyOk (d : List (String × String)) : Bool :=
  !(pstrip (dget d "Order ID") == "")

/-- The append pass of one `complaintsz.scrape_and_push_complaints`
run (with every `append_row` call succeeding): load the index from the
store, then run every parsed complaint through the gate. -/
def complaints_append_pass (sha256 : String → String)
    (records : List (List (String × String))) (store : List (List String)) :
    List (List String) :=
  (passFold (append_complaint_to_sheet sha256 true) records
    (store, load_complaint_hashes sha256 store)).1

/-- The append pass of one `reviews.click_and_extract_reviews` run
(with every `append_row` call succeeding). -/
def reviews_append_pass (sha256 : String → String)
    (records : List (List (String × String))) (store : List (List String)) :
    List (List String) :=
  (passFold (append_to_sheet sha256 true) records
    (store, load_review_hashes sha256 store)).1

/- ------------------------------------------------------------------ -/
/- Dashboard-metrics writers (SwiggyMain, ZomatoMain)                  -/
/- ------------------------------------------------------------------ -/

/-- A cell of the dashboard-metrics sheet: the writers append dates
and labels as strings, the outlet ID as an int, and the metric value
as an int, a float, or a literal sentinel string. -/
inductive Cell
  | s (v : String)
  | i (v : Int)
  | f (v : Rat)
deriving DecidableEq, Repr

/-- The cell holding `convert_value`'s result (a Python int, float, or
the string `"N/A"`). -/
def cellOfPyNum : PyNum → Cell
  | .NA => .s "N/A"
  | .i n => .i n
  | .f q => .f q

/-- One iteration of the metrics-writing loop of
`SwiggyMain.open_and_cycle_outlets` (lines 1025-1040): skip the metric
when the raw value is the literal `"N/A"`; otherwise normalize it with
`convert_value` and append
`[formatted_date, int(rid), label, cleaned_value, "Swiggy"]`.  A
failing `int(rid)` raises inside the `try` and the row is not appended
(the error is logged). -/
def swiggy_metric_step (formatted_date rid label raw_value : String)
    (sheet : List (List Cell)) : List (List Cell) :=
  if raw_value ≠ "N/A" then
    let cleaned_value := convert_value raw_value
    match pyIntOfString? rid with
    | some n =>
      sheet ++ [[Cell.s formatted_date, Cell.i n, Cell.s label,
                 cellOfPyNum cleaned_value, Cell.s "Swiggy"]]
    | none => sheet
  else sheet

/-- The metrics-writing loop of `SwiggyMain.open_and_cycle_outlets`
over the extracted metrics dict (insertion order). -/
def swiggy_write_metrics (formatted_date rid : String)
    (metrics : List (String × String)) (sheet : List (List Cell)) :
    List (List Cell) :=
  metrics.foldl (fun st lv => swiggy_metric_step formatted_date rid lv.1 lv.2 st) sheet

/-- One iteration of the metrics-writing loop of
`ZomatoMain.scrape_multiple_outlets` (lines 680-703): convert the
outlet ID with `int` (a failure is caught per metric and skipped); a
string value other than `"N/A"`/`"Not found"` is cleaned of the
currency/percent symbol and commas and parsed with `float` (a parse
failure is caught and the metric skipped); **the sentinels
`"N/A"`/`"Not found"` are appended literally**. -/
def zomato_metric_step (report_date_label outlet_id metric value : String)
    (sheet : List (List Cell)) : List (List Cell) :=
  match pyIntOfString? outlet_id with
  | none => sheet
  | some outlet_id_int =>
    if value ≠ "N/A" ∧ value ≠ "Not found" then
      let cleanedStr :=
        if ('₹' : Char) ∈ value.data then pyReplace (pyReplace value "₹" "") "," ""
        else if ('%' : Char) ∈ value.data then pyReplace (pyReplace value "%" "") "," ""
        else pyReplace value "," ""
      match pyFloatOfString? cleanedStr with
      | some q =>
        sheet ++ [[Cell.s report_date_label, Cell.i outlet_id_int, Cell.s metric,
                   Cell.f q, Cell.s "Zomato"]]
      | none => sheet
    else
      sheet ++ [[Cell.s report_date_label, Cell.i outlet_id_int, Cell.s metric,
                 Cell.s value, Cell.s "Zomato"]]

/-- The metrics-writing loop of `ZomatoMain.scrape_multiple_outlets`. -/
def zomato_write_metrics (report_date_label outlet_id : String)
    (parsed_data : List (String × String)) (sheet : List (List Cell)) :
    List (List Cell) :=
  parsed_data.foldl
    (fun st mv => zomato_metric_step report_date_label outlet_id mv.1 mv.2 st) sheet

/- ------------------------------------------------------------------ -/
/- Text-extraction service callers                                     -/
/- ------------------------------------------------------------------ -/

/-- The code-fence cleanup of `SwiggyMain.extract_all_metrics_with_gemini`
(lines 104-108): after `.strip()`, a response starting with
` ```json ` loses its first 7 and last 3 characters, one starting with
a bare fence loses its first 3 and last 3. -/
def swiggy_clean_response (result_text : String) : String :=
  let t := pstrip result_text
  if headMatches "```json".data t.data then ⟨(t.data.take (t.data.length - 3)).drop 7⟩
  else if headMatches "```".data t.data then ⟨(t.data.take (t.data.length - 3)).drop 3⟩
  else t

/-- `SwiggyMain.extract_all_metrics_with_gemini` (lines 60-117), seen
from the response side: `service` is the Gemini call on the page text
(`.error` = the call raised), `jsonParse` is `json.loads` (`none` = a
`JSONDecodeError`), `regexExtract` is `extract_all_metrics_regex`.
Any exception in the `try` block falls back to the regex extractor on
the same page text. -/
def extract_all_metrics_with_gemini
    (jsonParse : String → Option (List (String × String)))
    (regexExtract : String → List (String × String))
    (service : String → Except Unit String)
    (text : String) : List (String × String) :=
  match service text with
  | .error _ => regexExtract text
  | .ok resp =>
    match jsonParse (swiggy_clean_response resp) with
    | some metrics => metrics
    | none => regexExtract text

/-- The code-fence cleanup of `complaintsz.parse_complaint_with_gemini`
(line 94): remove every occurrence of ` ```json ` and ` ``` `, then
strip. -/
def complaintsz_clean_response (raw_content : String) : String :=
  pstrip (pyReplace (pyReplace raw_content "```json" "") "```" "")

/-- `complaintsz.parse_complaint_with_gemini` (lines 51-109), seen from
the response side: on a service error or a JSON parse failure it
returns `none` — **there is no regex fallback in this caller**; on
success it adds the outlet ID to the parsed dict. -/
def parse_complaint_with_gemini
    (jsonParse : String → Option (List (String × String)))
    (service : Except Unit String)
    (outlet_id : String) : Option (List (String × String)) :=
  match service with
  | .error _ => none
  | .ok resp =>
    let raw_content := pstrip resp
    match jsonParse (complaintsz_clean_response raw_content) with
    | none => none
    | some parsed_data => some (dset parsed_data "Outlet ID" outlet_id)

/- ------------------------------------------------------------------ -/
/- Concrete instances used by witnesses and counterexamples            -/
/- ------------------------------------------------------------------ -/

/-- A concrete digest function for closed instances (every theorem
holds for an arbitrary `sha256`). -/
def idHash : String → String := fun s => s

/-- A concrete `json.loads` that fails on every input, for closed
instances of a JSON parse failure. -/
def failParse : String → Option (List (String × String)) := fun _ => none

/-- A concrete regex extractor for closed instances. -/
def constRegexExtract : String → List (String × String) :=
  fun _ => [("Delivered Orders", "7")]

/-- A header row for closed store instances. -/
def hdrRow : List String :=
  ["Outlet ID", "Reason", "Status", "Refund Amount", "Complaint ID",
   "Timestamp", "Description", "Customer History", "Customer Name"]

/-- A header row for closed dashboard-store instances. -/
def hdrCells : List Cell :=
  [Cell.s "Date", Cell.s "RID", Cell.s "Metric", Cell.s "Value", Cell.s "Platform"]

/- ------------------------------------------------------------------ -/
/- The reviewsz.py writer (hash-gated reviews writer)                  -/
/- ------------------------------------------------------------------ -/

/-- Is `c` a regex word character (`\w`; the item strings at hand are
ASCII). -/
def isWordChar (c : Char) : Bool := c.isAlphanum || c = '_'

/-- `re.sub(r'(\b\d+ x)', r'\n\1', item)` in `reviewsz.push_to_sheet`
(line 58): insert a line break before every quantity marker — a
maximal digit run starting at a word boundary and followed by `" x"`.
`prev` is the character before the scan position (`none` at the
start); fuelled by the input length so the definition is structural. -/
def qtySubAux (prev : Option Char) : Nat → List Char → List Char
  | 0, l => l
  | f + 1, l =>
    match l with
    | [] => []
    | c :: cs =>
      let boundary := match prev with
        | none => true
        | some p => !isWordChar p
      let ds := l.takeWhile Char.isDigit
      if boundary && c.isDigit && headMatches [' ', 'x'] (l.drop ds.length) then
        '\n' :: ds ++ ' ' :: 'x' :: qtySubAux (some 'x') f ((l.drop ds.length).drop 2)
      else c :: qtySubAux (some c) f cs

/-- The per-item formatting of `reviewsz.push_to_sheet` (lines 56-59):
`re.sub(r'(\b\d+ x)', r'\n\1', item).strip()`. -/
def format_review_item (item : String) : String :=
  pstrip ⟨qtySubAux none item.data.length item.data⟩

/-- Python `sep.join(items)`. -/
def joinSep (sep : String) : List String → String
  | [] => ""
  | [x] => x
  | x :: xs => x ++ sep ++ joinSep sep xs

/-- The `extracted_data` dict built by `reviewsz.extract_fields`
(lines 81-92): string fields, a timeline sub-dict and an item list.
Every string field — in particular the order ID (line 114) — is
stripped at extraction. -/
structure RvzData where
  history : String
  rating : String
  comment : String
  order_id : String
  datetime : String
  timeline : List (String × String)
  items : List String
  distance : String
deriving DecidableEq, Repr

/-- The row `reviewsz.push_to_sheet` (lines 55-80) appends: the outlet
ID, the extracted fields (the order ID is the 5th column), seven
timeline entries read with `.get(k, "")`, the formatted items joined
with `" | "`, and the customer distance. -/
def push_to_sheet_row (outlet_id : String) (data : RvzData) : List String :=
  [outlet_id, data.history, data.rating, data.comment, data.order_id, data.datetime,
   dget data.timeline "Delivery Duration", dget data.timeline "Placed",
   dget data.timeline "Accepted", dget data.timeline "Ready",
   dget data.timeline "Delivery partner arrived", dget data.timeline "Picked up",
   dget data.timeline "Delivered",
   joinSep " | " (data.items.map format_review_item), data.distance]

/-- The full per-review decision of `reviewsz.scrape_and_push_reviews`
(lines 269-276): strip the extracted order ID; skip if empty; skip if
its digest is in the loaded index; otherwise push the row and only
then add the digest (`push_to_sheet` precedes `existing_hashes.add`,
and an exception raised by the push is caught by the enclosing
`except` before the `add` runs — `appendOk` says whether the push
succeeds). -/
def reviewsz_gate (sha256 : String → String) (appendOk : Bool)
    (worksheet : List (List String)) (outlet_id : String) (data : RvzData)
    (existing_hashes : List String) :
    List (List String) × List String × GateResult :=
  let order_id := pstrip data.order_id
  if order_id = "" then (worksheet, existing_hashes, .rejectedEmptyKey)
  else if generate_order_hash sha256 order_id ∈ existing_hashes then
    (worksheet, existing_hashes, .duplicate)
  else if appendOk then
    (worksheet ++ [push_to_sheet_row outlet_id data],
     generate_order_hash sha256 order_id :: existing_hashes, .appended)
  else (worksheet, existing_hashes, .writeFailed)

/-- `worksheet.col_values(5)` over the modelled store: the 5th column
(the order-ID column `push_to_sheet` writes) of every row, `""` for
rows without that cell. -/
def reviewsz_col_values (st : List (List String)) : List String :=
  st.map (fun r => r.getD 4 "")

/-- The dedup index `reviewsz.scrape_and_push_reviews` loads once at
run start (line 161), over a readable store. -/
def reviewsz_load (sha256 : String → String) (st : List (List String)) : List String :=
  get_existing_order_hashes sha256 (.ok (reviewsz_col_values st))

/-- The append pass of one `reviewsz.scrape_and_push_reviews` run
(readable store, every push succeeding): load the index from the
order-ID column, then run every extracted review — an (outlet-ID,
extracted-data) pair — through the gate. -/
def reviewsz_append_pass (sha256 : String → String)
    (records : List (String × RvzData)) (store : List (List String)) :
    List (List String) :=
  (passFold (fun st rec seen => reviewsz_gate sha256 true st rec.1 rec.2 seen) records
    (store, reviewsz_load sha256 store)).1

/-- Does an extracted review pass the reviewsz gate's key check? -/
def rvz_keyOk (rec : String × RvzData) : Bool := !(pstrip rec.2.order_id == "")

/- ------------------------------------------------------------------ -/
/- The complaints.py writer (batch complaints writer)                  -/
/- ------------------------------------------------------------------ -/

/-- The `existing_ids` comprehension of `complaints.push_to_google_sheet`
(line 57): `set(row[1] for row in sheet.get_all_values()[1:] if row)`
over the post-header rows.  Empty rows are skipped by the `if row`
guard; a non-empty row with fewer than 2 cells raises `IndexError`
(`none`), which the function's `except` turns into an aborted push. -/
def idsOfRows : List (List String) → Option (List String)
  | [] => some []
  | row :: rest =>
    (idsOfRows rest).bind (fun ids =>
      if row.isEmpty then some ids
      else (row.get? 1).map (fun v => v :: ids))

/-- The `new_rows` comprehension of `complaints.push_to_google_sheet`
(line 58): `[row for row in data_rows if row[1] not in existing_ids]`;
a data row with fewer than 2 cells raises `IndexError` (`none`). -/
def complaintsNewRows (existing_ids : List String) :
    List (List String) → Option (List (List String))
  | [] => some []
  | row :: rest =>
    (row.get? 1).bind (fun v =>
      (complaintsNewRows existing_ids rest).map (fun rs =>
        if v ∈ existing_ids then rs else row :: rs))

/-- `complaints.push_to_google_sheet` (lines 43-69): read the
complaint-ID column (index 1) of every stored row past the header,
keep the data rows whose ID is not already present, and append them in
one batch (`append_rows`); an empty batch returns without appending.
Every exception — a too-short row's `IndexError`, a store failure — is
caught by the function's `except` and leaves the store untouched; the
success path of the batch append is modelled. -/
def push_to_google_sheet (data_rows : List (List String))
    (store : List (List String)) : List (List String) :=
  match idsOfRows (store.drop 1) with
  | none => store
  | some existing_ids =>
    match complaintsNewRows existing_ids data_rows with
    | none => store
    | some new_rows =>
      if new_rows = [] then store
      else store ++ new_rows

/-- A concrete extracted review for closed instances. -/
def sampleRvzData : RvzData :=
  { history := "3 orders with you", rating := "4", comment := "Great",
    order_id := "X1", datetime := "2025-07-01",
    timeline := [("Placed", "10:00")], items := ["1 x Sundae"],
    distance := "2 km" }

/- ------------------------------------------------------------------ -/
/- Facts about stripping                                               -/
/- ------------------------------------------------------------------ -/

theorem dropWS_dropWS (l : List Char) : dropWS (dropWS l) = dropWS l := by
  induction l with
  | nil => rfl
  | cons c cs ih =>
    by_cases h : isPySpace c = true
    · simp [dropWS, h, ih]
    · simp only [Bool.not_eq_true] at h
      simp [dropWS, h]

theorem dropWS_length (l : List Char) : (dropWS l).length ≤ l.length := by
  induction l with
  | nil => simp [dropWS]
  | cons c cs ih =>
    by_cases h : isPySpace c = true
    · simp only [dropWS, h, if_true]
      exact ih.trans (Nat.le_succ _)
    · simp only [Bool.not_eq_true] at h
      simp [dropWS, h]

theorem dropWS_exists_append (l : List Char) : ∃ t, l = t ++ dropWS l := by
  induction l with
  | nil => exact ⟨[], rfl⟩
  | cons c cs ih =>
    by_cases h : isPySpace c = true
    · obtain ⟨t, ht⟩ := ih
      refine ⟨c :: t, ?_⟩
      simp [dropWS, h]
      exact ht
    · simp only [Bool.not_eq_true] at h
      exact ⟨[], by simp [dropWS, h]⟩

theorem head_not_space_of_dropWS_fix (c : Char) (cs : List Char)
    (h : dropWS (c :: cs) = c :: cs) : isPySpace c = false := by
  by_contra hc
  simp only [Bool.not_eq_false] at hc
  have h1 : dropWS (c :: cs) = dropWS cs := by simp [dropWS, hc]
  have h2 : (dropWS cs).length ≤ cs.length := dropWS_length cs
  rw [h1] at h
  have := congrArg List.length h
  simp at this
  omega

theorem dropWS_eq_self_of_append (a t : List Char)
    (h : dropWS (a ++ t) = a ++ t) : dropWS a = a := by
  cases a with
  | nil => rfl
  | cons x xs =>
    have hx : isPySpace x = false := head_not_space_of_dropWS_fix x (xs ++ t) h
    simp [dropWS, hx]

theorem pstrip_idem (s : String) : pstrip (pstrip s) = pstrip s := by
  unfold pstrip
  have hY : dropWS (dropWS s.data) = dropWS s.data := dropWS_dropWS s.data
  set Y := dropWS s.data with hYdef
  set Z := dropWS Y.reverse with hZdef
  have hZfix : dropWS Z = Z := by rw [hZdef]; exact dropWS_dropWS _
  have hXfix : dropWS Z.reverse = Z.reverse := by
    obtain ⟨t, ht⟩ := dropWS_exists_append Y.reverse
    rw [← hZdef] at ht
    have hYeq : Y = Z.reverse ++ t.reverse := by
      have := congrArg List.reverse ht
      simpa using this
    apply dropWS_eq_self_of_append Z.reverse t.reverse
    rw [← hYeq]
    exact hY
  show (⟨(dropWS ((dropWS Z.reverse).reverse)).reverse⟩ : String) = ⟨Z.reverse⟩
  rw [hXfix]
  simp [hZfix]

/- ------------------------------------------------------------------ -/
/- Idempotence of an append pass (generic)                             -/
/- ------------------------------------------------------------------ -/

/-- If every record of the list is already covered by the index (or
has no key), a pass leaves store and index unchanged. -/
theorem passFold_skip_all {Rec Row : Type}
    (gate : List Row → Rec → List String → List Row × List String × GateResult)
    (keyOk : Rec → Bool) (hashOf : Rec → String)
    (hgateSkip : ∀ st c seen, keyOk c = false →
      (gate st c seen).1 = st ∧ (gate st c seen).2.1 = seen)
    (hgateDup : ∀ st c seen, keyOk c = true → hashOf c ∈ seen →
      (gate st c seen).1 = st ∧ (gate st c seen).2.1 = seen) :
    ∀ (records : List Rec) (st : List Row) (seen : List String),
      (∀ c ∈ records, keyOk c = true → hashOf c ∈ seen) →
      passFold gate records (st, seen) = (st, seen) := by
  intro records
  induction records with
  | nil => intro st seen _; rfl
  | cons c cs ih =>
    intro st seen hall
    have hstep : (gate st c seen).1 = st ∧ (gate st c seen).2.1 = seen := by
      by_cases hkc : keyOk c = true
      · exact hgateDup st c seen hkc (hall c (by simp) hkc)
      · simp only [Bool.not_eq_true] at hkc
        exact hgateSkip st c seen hkc
    show passFold gate cs ((gate st c seen).1, (gate st c seen).2.1) = (st, seen)
    rw [hstep.1, hstep.2]
    exact ih st seen (fun c' hc' => hall c' (by simp [hc']))

/-- Main invariant of one pass: the store only grows, the index only
grows, the index stays covered by what the loader would now read back,
and every keyed record's digest ends up in the index. -/
theorem passFold_invariant {Rec Row : Type}
    (gate : List Row → Rec → List String → List Row × List String × GateResult)
    (load : List Row → List String)
    (keyOk : Rec → Bool) (hashOf : Rec → String) (rowOf : Rec → Row)
    (hgateSkip : ∀ st c seen, keyOk c = false →
      (gate st c seen).1 = st ∧ (gate st c seen).2.1 = seen)
    (hgateDup : ∀ st c seen, keyOk c = true → hashOf c ∈ seen →
      (gate st c seen).1 = st ∧ (gate st c seen).2.1 = seen)
    (hgateApp : ∀ st c seen, keyOk c = true → hashOf c ∉ seen →
      (gate st c seen).1 = st ++ [rowOf c] ∧ (gate st c seen).2.1 = hashOf c :: seen)
    (hmono : ∀ st r x, st ≠ [] → x ∈ load st → x ∈ load (st ++ [r])) :
    ∀ (records : List Rec),
      (∀ (st : List Row) c, c ∈ records → st ≠ [] → keyOk c = true →
        hashOf c ∈ load (st ++ [rowOf c])) →
      ∀ (st : List Row) (seen : List String),
      st ≠ [] → (∀ x ∈ seen, x ∈ load st) →
      (∀ x ∈ seen, x ∈ (passFold gate records (st, seen)).2) ∧
      (∀ x ∈ (passFold gate records (st, seen)).2,
        x ∈ load (passFold gate records (st, seen)).1) ∧
      (∀ c ∈ records, keyOk c = true → hashOf c ∈ (passFold gate records (st, seen)).2) := by
  intro records
  induction records with
  | nil =>
    intro _ st seen _ hsub
    refine ⟨fun x hx => hx, fun x hx => hsub x hx, by simp⟩
  | cons c cs ih =>
    intro hcoh st seen hne hsub
    have ihw := ih (fun st' c' hc' => hcoh st' c' (List.mem_cons_of_mem _ hc'))
    by_cases hkc : keyOk c = true
    · by_cases hmem : hashOf c ∈ seen
      · have hstep := hgateDup st c seen hkc hmem
        have heq : passFold gate (c :: cs) (st, seen) = passFold gate cs (st, seen) := by
          show passFold gate cs ((gate st c seen).1, (gate st c seen).2.1) = _
          rw [hstep.1, hstep.2]
        rw [heq]
        obtain ⟨h1, h2, h3⟩ := ihw st seen hne hsub
        refine ⟨h1, h2, ?_⟩
        intro c' hc' hkc'
        rcases List.mem_cons.mp hc' with h | h
        · subst h; exact h1 _ hmem
        · exact h3 c' h hkc'
      · have hstep := hgateApp st c seen hkc hmem
        have heq : passFold gate (c :: cs) (st, seen)
            = passFold gate cs (st ++ [rowOf c], hashOf c :: seen) := by
          show passFold gate cs ((gate st c seen).1, (gate st c seen).2.1) = _
          rw [hstep.1, hstep.2]
        rw [heq]
        have hne' : st ++ [rowOf c] ≠ [] := by simp
        have hsub' : ∀ x ∈ hashOf c :: seen, x ∈ load (st ++ [rowOf c]) := by
          intro x hx
          rcases List.mem_cons.mp hx with h | h
          · subst h; exact hcoh st c (List.mem_cons_self _ _) hne hkc
          · exact hmono st (rowOf c) x hne (hsub x h)
        obtain ⟨h1, h2, h3⟩ := ihw (st ++ [rowOf c]) (hashOf c :: seen) hne' hsub'
        refine ⟨fun x hx => h1 x (List.mem_cons_of_mem _ hx), h2, ?_⟩
        intro c' hc' hkc'
        rcases List.mem_cons.mp hc' with h | h
        · subst h; exact h1 _ (List.mem_cons_self _ _)
        · exact h3 c' h hkc'
    · simp only [Bool.not_eq_true] at hkc
      have hstep := hgateSkip st c seen hkc
      have heq : passFold gate (c :: cs) (st, seen) = passFold gate cs (st, seen) := by
        show passFold gate cs ((gate st c seen).1, (gate st c seen).2.1) = _
        rw [hstep.1, hstep.2]
      rw [heq]
      obtain ⟨h1, h2, h3⟩ := ihw st seen hne hsub
      refine ⟨h1, h2, ?_⟩
      intro c' hc' hkc'
      rcases List.mem_cons.mp hc' with h | h
      · subst h; rw [hkc] at hkc'; cases hkc'
      · exact h3 c' h hkc'

/-- Generic idempotence: running a pass again, with the index reloaded
from the store the first pass produced, changes nothing. -/
theorem passFold_idem {Rec Row : Type}
    (gate : List Row → Rec → List String → List Row × List String × GateResult)
    (load : List Row → List String)
    (keyOk : Rec → Bool) (hashOf : Rec → String) (rowOf : Rec → Row)
    (hgateSkip : ∀ st c seen, keyOk c = false →
      (gate st c seen).1 = st ∧ (gate st c seen).2.1 = seen)
    (hgateDup : ∀ st c seen, keyOk c = true → hashOf c ∈ seen →
      (gate st c seen).1 = st ∧ (gate st c seen).2.1 = seen)
    (hgateApp : ∀ st c seen, keyOk c = true → hashOf c ∉ seen →
      (gate st c seen).1 = st ++ [rowOf c] ∧ (gate st c seen).2.1 = hashOf c :: seen)
    (hmono : ∀ st r x, st ≠ [] → x ∈ load st → x ∈ load (st ++ [r]))
    (records : List Rec)
    (hcoh : ∀ (st : List Row) c, c ∈ records → st ≠ [] → keyOk c = true →
      hashOf c ∈ load (st ++ [rowOf c]))
    (st : List Row) (hne : st ≠ []) :
    passFold gate records
      ((passFold gate records (st, load st)).1,
        load (passFold gate records (st, load st)).1)
      = ((passFold gate records (st, load st)).1,
          load (passFold gate records (st, load st)).1) := by
  obtain ⟨_, h2, h3⟩ := passFold_invariant gate load keyOk hashOf rowOf
    hgateSkip hgateDup hgateApp hmono records hcoh st (load st) hne (fun x hx => hx)
  exact passFold_skip_all gate keyOk hashOf hgateSkip hgateDup records _ _
    (fun c hc hkc => h2 _ (h3 c hc hkc))

/- ------------------------------------------------------------------ -/
/- Hasher and loader facts                                             -/
/- ------------------------------------------------------------------ -/

theorem dget_cons_pos (k v : String) (rest : List (String × String)) :
    dget ((k, v) :: rest) k = v := by
  simp [dget, List.find?_cons_of_pos]

theorem generate_complaint_hash_of_key (sha256 : String → String)
    (c : List (String × String)) (h : pstrip (dget c "Complaint ID") ≠ "") :
    generate_complaint_hash sha256 c = sha256 (pstrip (dget c "Complaint ID")) := by
  simp [generate_complaint_hash, h]

theorem generate_complaint_hash_pair (sha256 : String → String) (cid ts : String)
    (h : pstrip cid ≠ "") :
    generate_complaint_hash sha256 [("Complaint ID", cid), ("Timestamp", ts)]
      = sha256 (pstrip cid) := by
  have h1 : dget [("Complaint ID", cid), ("Timestamp", ts)] "Complaint ID" = cid :=
    dget_cons_pos _ _ _
  simp [generate_complaint_hash, h1, h]

theorem generate_review_hash_of_key (sha256 : String → String)
    (d : List (String × String)) (h : pstrip (dget d "Order ID") ≠ "") :
    generate_review_hash sha256 d = sha256 (pstrip (dget d "Order ID")) := by
  simp [generate_review_hash, h]

theorem generate_review_hash_pair (sha256 : String → String) (oid ts : String)
    (h : pstrip oid ≠ "") :
    generate_review_hash sha256 [("Order ID", oid), ("Timestamp", ts)]
      = sha256 (pstrip oid) := by
  have h1 : dget [("Order ID", oid), ("Timestamp", ts)] "Order ID" = oid :=
    dget_cons_pos _ _ _
  simp [generate_review_hash, h1, h]

theorem complaint_row_data_getD4 (c : List (String × String)) :
    (complaint_row_data c).getD 4 "" = dget c "Complaint ID" := by
  simp [complaint_row_data, List.getD]

theorem complaint_row_data_getD5 (c : List (String × String)) :
    (complaint_row_data c).getD 5 "" = dget c "Timestamp" := by
  simp [complaint_row_data, List.getD]

/-- The loader recovers the gate's digest from the row the gate just
appended. -/
theorem complaint_row_hash_of_row_data (sha256 : String → String)
    (c : List (String × String)) (h : pstrip (dget c "Complaint ID") ≠ "") :
    complaint_row_hash? sha256 (complaint_row_data c)
      = some (generate_complaint_hash sha256 c) := by
  have hkey2 : pstrip (pstrip (dget c "Complaint ID")) ≠ "" := by
    rw [pstrip_idem]; exact h
  have hlen : (complaint_row_data c).length = 9 := by simp [complaint_row_data]
  unfold complaint_row_hash?
  rw [hlen, complaint_row_data_getD4, complaint_row_data_getD5]
  norm_num [hkey2]
  rw [generate_complaint_hash_pair sha256 _ _ hkey2,
      generate_complaint_hash_of_key sha256 c h, pstrip_idem]
  exact ⟨h, rfl⟩

theorem review_row_data_getD0 (d : List (String × String)) :
    (review_row_data d).getD 0 "" = dget d "Order ID" := by
  simp [review_row_data, List.getD]

theorem review_row_data_getD1 (d : List (String × String)) :
    (review_row_data d).getD 1 "" = dget d "Timestamp" := by
  simp [review_row_data, List.getD]

theorem review_row_hash_of_row_data (sha256 : String → String)
    (d : List (String × String)) (h : pstrip (dget d "Order ID") ≠ "") :
    review_row_hash? sha256 (review_row_data d)
      = some (generate_review_hash sha256 d) := by
  have hkey2 : pstrip (pstrip (dget d "Order ID")) ≠ "" := by
    rw [pstrip_idem]; exact h
  unfold review_row_hash?
  rw [review_row_data_getD0, review_row_data_getD1]
  simp only [ne_eq, hkey2, not_false_eq_true, if_true, ite_not, if_neg]
  rw [generate_review_hash_pair sha256 _ _ hkey2,
      generate_review_hash_of_key sha256 d h, pstrip_idem]
  rw [if_neg h]

theorem load_complaint_hashes_append (sha256 : String → String)
    (st : List (List String)) (r : List String) (hne : st ≠ []) :
    load_complaint_hashes sha256 (st ++ [r])
      = load_complaint_hashes sha256 st
        ++ List.filterMap (complaint_row_hash? sha256) [r] := by
  unfold load_complaint_hashes
  cases st with
  | nil => exact absurd rfl hne
  | cons a as => simp [List.filterMap_append]

theorem load_review_hashes_append (sha256 : String → String)
    (st : List (List String)) (r : List String) (hne : st ≠ []) :
    load_review_hashes sha256 (st ++ [r])
      = load_review_hashes sha256 st
        ++ List.filterMap (review_row_hash? sha256) [r] := by
  unfold load_review_hashes
  cases st with
  | nil => exact absurd rfl hne
  | cons a as => simp [List.filterMap_append]

/- ------------------------------------------------------------------ -/
/- Gate shapes                                                         -/
/- ------------------------------------------------------------------ -/

theorem append_complaint_gate_skip (sha256 : String → String) :
    ∀ st c seen, complaint_keyOk c = false →
      (append_complaint_to_sheet sha256 true st c seen).1 = st ∧
      (append_complaint_to_sheet sha256 true st c seen).2.1 = seen := by
  intro st c seen h
  have h' : pstrip (dget c "Complaint ID") = "" := by
    simpa [complaint_keyOk] using h
  simp [append_complaint_to_sheet, h']

theorem append_complaint_gate_dup (sha256 : String → String) :
    ∀ st c seen, complaint_keyOk c = true →
      generate_complaint_hash sha256 c ∈ seen →
      (append_complaint_to_sheet sha256 true st c seen).1 = st ∧
      (append_complaint_to_sheet sha256 true st c seen).2.1 = seen := by
  intro st c seen h hmem
  have h' : pstrip (dget c "Complaint ID") ≠ "" := by
    simpa [complaint_keyOk] using h
  simp [append_complaint_to_sheet, h', hmem]

theorem append_complaint_gate_app (sha256 : String → String) :
    ∀ st c seen, complaint_keyOk c = true →
      generate_complaint_hash sha256 c ∉ seen →
      (append_complaint_to_sheet sha256 true st c seen).1 = st ++ [complaint_row_data c] ∧
      (append_complaint_to_sheet sha256 true st c seen).2.1
        = generate_complaint_hash sha256 c :: seen := by
  intro st c seen h hmem
  have h' : pstrip (dget c "Complaint ID") ≠ "" := by
    simpa [complaint_keyOk] using h
  simp [append_complaint_to_sheet, h', hmem]

theorem append_review_gate_skip (sha256 : String → String) :
    ∀ st d seen, review_keyOk d = false →
      (append_to_sheet sha256 true st d seen).1 = st ∧
      (append_to_sheet sha256 true st d seen).2.1 = seen := by
  intro st d seen h
  have h' : pstrip (dget d "Order ID") = "" := by
    simpa [review_keyOk] using h
  simp [append_to_sheet, h']

theorem append_review_gate_dup (sha256 : String → String) :
    ∀ st d seen, review_keyOk d = true →
      generate_review_hash sha256 d ∈ seen →
      (append_to_sheet sha256 true st d seen).1 = st ∧
      (append_to_sheet sha256 true st d seen).2.1 = seen := by
  intro st d seen h hmem
  have h' : pstrip (dget d "Order ID") ≠ "" := by
    simpa [review_keyOk] using h
  simp [append_to_sheet, h', hmem]

theorem append_review_gate_app (sha256 : String → String) :
    ∀ st d seen, review_keyOk d = true →
      generate_review_hash sha256 d ∉ seen →
      (append_to_sheet sha256 true st d seen).1 = st ++ [review_row_data d] ∧
      (append_to_sheet sha256 true st d seen).2.1
        = generate_review_hash sha256 d :: seen := by
  intro st d seen h hmem
  have h' : pstrip (dget d "Order ID") ≠ "" := by
    simpa [review_keyOk] using h
  simp [append_to_sheet, h', hmem]

theorem load_complaint_hashes_mono (sha256 : String → String)
    (st : List (List String)) (r : List String) (x : String)
    (hne : st ≠ []) (hx : x ∈ load_complaint_hashes sha256 st) :
    x ∈ load_complaint_hashes sha256 (st ++ [r]) := by
  rw [load_complaint_hashes_append sha256 st r hne]
  exact List.mem_append_left _ hx

theorem load_review_hashes_mono (sha256 : String → String)
    (st : List (List String)) (r : List String) (x : String)
    (hne : st ≠ []) (hx : x ∈ load_review_hashes sha256 st) :
    x ∈ load_review_hashes sha256 (st ++ [r]) := by
  rw [load_review_hashes_append sha256 st r hne]
  exact List.mem_append_left _ hx

theorem complaint_hash_mem_load (sha256 : String → String)
    (st : List (List String)) (c : List (String × String))
    (hne : st ≠ []) (hk : complaint_keyOk c = true) :
    generate_complaint_hash sha256 c
      ∈ load_complaint_hashes sha256 (st ++ [complaint_row_data c]) := by
  have h : pstrip (dget c "Complaint ID") ≠ "" := by
    simpa [complaint_keyOk] using hk
  rw [load_complaint_hashes_append sha256 st _ hne]
  apply List.mem_append_right
  simp [List.filterMap_cons, complaint_row_hash_of_row_data sha256 c h]

theorem review_hash_mem_load (sha256 : String → String)
    (st : List (List String)) (d : List (String × String))
    (hne : st ≠ []) (hk : review_keyOk d = true) :
    generate_review_hash sha256 d
      ∈ load_review_hashes sha256 (st ++ [review_row_data d]) := by
  have h : pstrip (dget d "Order ID") ≠ "" := by
    simpa [review_keyOk] using hk
  rw [load_review_hashes_append sha256 st _ hne]
  apply List.mem_append_right
  simp [List.filterMap_cons, review_row_hash_of_row_data sha256 d h]

/- ------------------------------------------------------------------ -/
/- Gate and loader facts for the reviewsz writer                       -/
/- ------------------------------------------------------------------ -/

theorem reviewsz_gate_skip (sha256 : String → String) :
    ∀ st (rec : String × RvzData) seen, rvz_keyOk rec = false →
      (reviewsz_gate sha256 true st rec.1 rec.2 seen).1 = st ∧
      (reviewsz_gate sha256 true st rec.1 rec.2 seen).2.1 = seen := by
  intro st rec seen h
  have h' : pstrip rec.2.order_id = "" := by simpa [rvz_keyOk] using h
  simp [reviewsz_gate, h']

theorem reviewsz_gate_dup (sha256 : String → String) :
    ∀ st (rec : String × RvzData) seen, rvz_keyOk rec = true →
      generate_order_hash sha256 (pstrip rec.2.order_id) ∈ seen →
      (reviewsz_gate sha256 true st rec.1 rec.2 seen).1 = st ∧
      (reviewsz_gate sha256 true st rec.1 rec.2 seen).2.1 = seen := by
  intro st rec seen h hmem
  have h' : pstrip rec.2.order_id ≠ "" := by simpa [rvz_keyOk] using h
  simp [reviewsz_gate, h', hmem]

theorem reviewsz_gate_app (sha256 : String → String) :
    ∀ st (rec : String × RvzData) seen, rvz_keyOk rec = true →
      generate_order_hash sha256 (pstrip rec.2.order_id) ∉ seen →
      (reviewsz_gate sha256 true st rec.1 rec.2 seen).1
        = st ++ [push_to_sheet_row rec.1 rec.2] ∧
      (reviewsz_gate sha256 true st rec.1 rec.2 seen).2.1
        = generate_order_hash sha256 (pstrip rec.2.order_id) :: seen := by
  intro st rec seen h hmem
  have h' : pstrip rec.2.order_id ≠ "" := by simpa [rvz_keyOk] using h
  simp [reviewsz_gate, h', hmem]

theorem filterMap_order_hash_singleton (sha256 : String → String) (oid : String) :
    List.filterMap
        (fun order_id => if pstrip order_id ≠ ""
          then some (generate_order_hash sha256 order_id) else none) [oid]
      = (if pstrip oid ≠ "" then [generate_order_hash sha256 oid] else []) := by
  by_cases hg : pstrip oid ≠ ""
  · rw [if_pos hg]
    simp only [List.filterMap_cons, List.filterMap_nil, if_pos hg]
  · rw [if_neg hg]
    simp only [List.filterMap_cons, List.filterMap_nil, if_neg hg]

theorem reviewsz_load_append (sha256 : String → String)
    (st : List (List String)) (r : List String) (hne : st ≠ []) :
    reviewsz_load sha256 (st ++ [r])
      = reviewsz_load sha256 st
        ++ (if pstrip (r.getD 4 "") ≠ ""
            then [generate_order_hash sha256 (r.getD 4 "")] else []) := by
  cases st with
  | nil => exact absurd rfl hne
  | cons a as =>
    unfold reviewsz_load reviewsz_col_values get_existing_order_hashes
    simp only [List.cons_append, List.map_cons, List.map_append, List.map_nil,
      List.drop_one, List.tail_cons, List.filterMap_append]
    rw [filterMap_order_hash_singleton]

theorem reviewsz_load_mono (sha256 : String → String)
    (st : List (List String)) (r : List String) (x : String)
    (hne : st ≠ []) (hx : x ∈ reviewsz_load sha256 st) :
    x ∈ reviewsz_load sha256 (st ++ [r]) := by
  rw [reviewsz_load_append sha256 st r hne]
  exact List.mem_append_left _ hx

/-- The reviewsz loader recovers the gate's digest from the row the
gate just pushed, because the extracted order ID is already stripped
(`reviewsz.extract_fields` line 114). -/
theorem rvz_hash_mem_load (sha256 : String → String)
    (st : List (List String)) (rec : String × RvzData)
    (hfix : pstrip rec.2.order_id = rec.2.order_id)
    (hne : st ≠ []) (hk : rvz_keyOk rec = true) :
    generate_order_hash sha256 (pstrip rec.2.order_id)
      ∈ reviewsz_load sha256 (st ++ [push_to_sheet_row rec.1 rec.2]) := by
  have h : pstrip rec.2.order_id ≠ "" := by simpa [rvz_keyOk] using hk
  have hg4 : (push_to_sheet_row rec.1 rec.2).getD 4 "" = rec.2.order_id := by
    simp [push_to_sheet_row, List.getD]
  rw [reviewsz_load_append sha256 st _ hne, hg4, if_pos (by rw [hfix] at h ⊢; exact h)]
  apply List.mem_append_right
  rw [hfix]
  simp

/- ------------------------------------------------------------------ -/
/- Facts about the complaints.py batch writer                          -/
/- ------------------------------------------------------------------ -/

theorem idsOfRows_append :
    ∀ (a b : List (List String)) (as bs : List String),
      idsOfRows a = some as → idsOfRows b = some bs →
      idsOfRows (a ++ b) = some (as ++ bs) := by
  intro a
  induction a with
  | nil =>
    intro b as bs ha hb
    rw [idsOfRows] at ha
    injection ha with ha
    subst ha
    simpa using hb
  | cons row rest ih =>
    intro b as bs ha hb
    rw [idsOfRows] at ha
    cases hr : idsOfRows rest with
    | none => rw [hr, Option.none_bind] at ha; cases ha
    | some ids =>
      rw [hr, Option.some_bind] at ha
      rw [List.cons_append, idsOfRows, ih b ids bs hr hb, Option.some_bind]
      by_cases he : row.isEmpty
      · rw [if_pos he] at ha
        rw [if_pos he]
        injection ha with ha
        subst ha
        rfl
      · rw [if_neg he] at ha
        rw [if_neg he]
        cases hg : row.get? 1 with
        | none => rw [hg, Option.map_none'] at ha; cases ha
        | some v =>
          rw [hg, Option.map_some'] at ha
          rw [Option.map_some']
          injection ha with ha
          subst ha
          rfl

theorem idsOfRows_of_get (b : List (List String))
    (h : ∀ r ∈ b, ∃ v, r.get? 1 = some v) :
    ∃ bs, idsOfRows b = some bs ∧
      ∀ r ∈ b, ∀ v, r.get? 1 = some v → v ∈ bs := by
  induction b with
  | nil => exact ⟨[], rfl, by simp⟩
  | cons row rest ih =>
    obtain ⟨bs, hbs, hmem⟩ := ih (fun r hr => h r (List.mem_cons_of_mem _ hr))
    obtain ⟨v, hv⟩ := h row (List.mem_cons_self _ _)
    have hne : ¬(row.isEmpty = true) := by
      intro hcon
      cases row with
      | nil => rw [List.get?_nil] at hv; cases hv
      | cons x xs => cases hcon
    refine ⟨v :: bs, ?_, ?_⟩
    · rw [idsOfRows, hbs, Option.some_bind, if_neg hne, hv, Option.map_some']
    · intro r hr w hw
      rcases List.mem_cons.mp hr with rfl | hr
      · rw [hv] at hw
        injection hw with hw
        exact hw ▸ List.mem_cons_self _ _
      · exact List.mem_cons_of_mem _ (hmem r hr w hw)

theorem complaintsNewRows_get (ids : List String) :
    ∀ (data nr : List (List String)), complaintsNewRows ids data = some nr →
      ∀ r ∈ data, ∃ v, r.get? 1 = some v ∧ (v ∈ ids ∨ r ∈ nr) := by
  intro data
  induction data with
  | nil => intro nr _ r hr; cases hr
  | cons row rest ih =>
    intro nr h r hr
    rw [complaintsNewRows] at h
    cases hg : row.get? 1 with
    | none => rw [hg, Option.none_bind] at h; cases h
    | some v =>
      rw [hg, Option.some_bind] at h
      cases hrest : complaintsNewRows ids rest with
      | none => rw [hrest, Option.map_none'] at h; cases h
      | some rs =>
        rw [hrest, Option.map_some'] at h
        injection h with h
        subst h
        by_cases hv : v ∈ ids
        · rcases List.mem_cons.mp hr with rfl | hr2
          · exact ⟨v, hg, Or.inl hv⟩
          · obtain ⟨w, hw1, hw2⟩ := ih rs hrest r hr2
            refine ⟨w, hw1, hw2.imp id ?_⟩
            intro hw3
            rw [if_pos hv]
            exact hw3
        · rcases List.mem_cons.mp hr with rfl | hr2
          · refine ⟨v, hg, Or.inr ?_⟩
            rw [if_neg hv]
            exact List.mem_cons_self _ _
          · obtain ⟨w, hw1, hw2⟩ := ih rs hrest r hr2
            refine ⟨w, hw1, hw2.imp id ?_⟩
            intro hw3
            rw [if_neg hv]
            exact List.mem_cons_of_mem _ hw3

theorem complaintsNewRows_sub (ids : List String) :
    ∀ (data nr : List (List String)), complaintsNewRows ids data = some nr →
      ∀ r ∈ nr, r ∈ data := by
  intro data
  induction data with
  | nil =>
    intro nr h r hr
    rw [complaintsNewRows] at h
    injection h with h
    subst h
    cases hr
  | cons row rest ih =>
    intro nr h r hr
    rw [complaintsNewRows] at h
    cases hg : row.get? 1 with
    | none => rw [hg, Option.none_bind] at h; cases h
    | some v =>
      rw [hg, Option.some_bind] at h
      cases hrest : complaintsNewRows ids rest with
      | none => rw [hrest, Option.map_none'] at h; cases h
      | some rs =>
        rw [hrest, Option.map_some'] at h
        injection h with h
        subst h
        by_cases hv : v ∈ ids
        · rw [if_pos hv] at hr
          exact List.mem_cons_of_mem _ (ih rs hrest r hr)
        · rw [if_neg hv] at hr
          rcases List.mem_cons.mp hr with rfl | hr2
          · exact List.mem_cons_self _ _
          · exact List.mem_cons_of_mem _ (ih rs hrest r hr2)

theorem complaintsNewRows_all_skip (ids2 : List String) :
    ∀ data : List (List String),
      (∀ r ∈ data, ∃ v, r.get? 1 = some v ∧ v ∈ ids2) →
      complaintsNewRows ids2 data = some [] := by
  intro data
  induction data with
  | nil => intro _; rfl
  | cons row rest ih =>
    intro h
    obtain ⟨v, hv, hvm⟩ := h row (List.mem_cons_self _ _)
    rw [complaintsNewRows, hv, Option.some_bind,
      ih (fun r hr => h r (List.mem_cons_of_mem _ hr)), Option.map_some', if_pos hvm]

/-- Cross-run idempotence of the complaints.py batch push: the second
run re-reads the complaint-ID column — which now contains every ID the
first run appended — and filters every candidate out. -/
theorem push_to_google_sheet_idem (data_rows store : List (List String))
    (hne : store ≠ []) :
    push_to_google_sheet data_rows (push_to_google_sheet data_rows store)
      = push_to_google_sheet data_rows store := by
  cases hids : idsOfRows (store.drop 1) with
  | none =>
    have h1 : push_to_google_sheet data_rows store = store := by
      unfold push_to_google_sheet
      rw [hids]
    rw [h1, h1]
  | some ids =>
    cases hnr : complaintsNewRows ids data_rows with
    | none =>
      have h1 : push_to_google_sheet data_rows store = store := by
        unfold push_to_google_sheet
        simp only [hids, hnr]
      rw [h1, h1]
    | some nr =>
      by_cases hempty : nr = []
      · have h1 : push_to_google_sheet data_rows store = store := by
          unfold push_to_google_sheet
          simp only [hids, hnr, if_pos hempty]
        rw [h1, h1]
      · have h1 : push_to_google_sheet data_rows store = store ++ nr := by
          unfold push_to_google_sheet
          simp only [hids, hnr, if_neg hempty]
        rw [h1]
        have hdrop : (store ++ nr).drop 1 = store.drop 1 ++ nr := by
          cases store with
          | nil => exact absurd rfl hne
          | cons a as => simp
        have hnrget : ∀ r ∈ nr, ∃ v, r.get? 1 = some v := by
          intro r hr
          obtain ⟨v, hv, _⟩ := complaintsNewRows_get ids data_rows nr hnr r
            (complaintsNewRows_sub ids data_rows nr hnr r hr)
          exact ⟨v, hv⟩
        obtain ⟨bs, hbs, hbsmem⟩ := idsOfRows_of_get nr hnrget
        have hids2 : idsOfRows ((store ++ nr).drop 1) = some (ids ++ bs) := by
          rw [hdrop]
          exact idsOfRows_append _ _ _ _ hids hbs
        have hskip : complaintsNewRows (ids ++ bs) data_rows = some [] := by
          apply complaintsNewRows_all_skip
          intro r hr
          obtain ⟨v, hv, hv2⟩ := complaintsNewRows_get ids data_rows nr hnr r hr
          refine ⟨v, hv, ?_⟩
          rcases hv2 with h | h
          · exact List.mem_append_left _ h
          · exact List.mem_append_right _ (hbsmem r h v hv)
        unfold push_to_google_sheet
        simp only [hids2, hskip]
        simp

/- ------------------------------------------------------------------ -/
/- Claim C1                                                            -/
/- ------------------------------------------------------------------ -/

/-- C1 (amended).  Idempotence holds for every deduplicating writer:
the complaints writers — the per-record gate in `complaintsz.py` and
the batch push in `complaints.py` — and the reviews writers — the
gates in `reviews.py` and `reviewsz.py` (whose extracted order IDs are
stripped at extraction, `reviewsz.extract_fields` line 114, the
`hfix` hypothesis): running the append pass twice with an identical
record set against the same initial store state (whose first row is
the header, per the store contract) yields exactly the same final
store content as running it once — no record is appended twice.  The
dashboard-metrics writers of `SwiggyMain.py`/`ZomatoMain.py` are NOT
idempotent (see the counterexample): they perform no dedup check at
all. -/
theorem C1_append_pass_idempotent (sha256 : String → String)
    (complaintRecords reviewRecords : List (List (String × String)))
    (rvzRecords : List (String × RvzData)) (data_rows : List (List String))
    (cstore rstore zstore bstore : List (List String))
    (hc : cstore ≠ []) (hr : rstore ≠ []) (hz : zstore ≠ []) (hb : bstore ≠ [])
    (hfix : ∀ rec ∈ rvzRecords, pstrip rec.2.order_id = rec.2.order_id) :
    complaints_append_pass sha256 complaintRecords
        (complaints_append_pass sha256 complaintRecords cstore)
      = complaints_append_pass sha256 complaintRecords cstore ∧
    reviews_append_pass sha256 reviewRecords
        (reviews_append_pass sha256 reviewRecords rstore)
      = reviews_append_pass sha256 reviewRecords rstore ∧
    reviewsz_append_pass sha256 rvzRecords
        (reviewsz_append_pass sha256 rvzRecords zstore)
      = reviewsz_append_pass sha256 rvzRecords zstore ∧
    push_to_google_sheet data_rows (push_to_google_sheet data_rows bstore)
      = push_to_google_sheet data_rows bstore := by
  refine ⟨?_, ?_, ?_, push_to_google_sheet_idem data_rows bstore hb⟩
  · have hidem := passFold_idem (append_complaint_to_sheet sha256 true)
      (load_complaint_hashes sha256) complaint_keyOk
      (generate_complaint_hash sha256) complaint_row_data
      (append_complaint_gate_skip sha256) (append_complaint_gate_dup sha256)
      (append_complaint_gate_app sha256)
      (load_complaint_hashes_mono sha256) complaintRecords
      (fun st c _ hne hk => complaint_hash_mem_load sha256 st c hne hk)
      cstore hc
    unfold complaints_append_pass
    rw [hidem]
  · have hidem := passFold_idem (append_to_sheet sha256 true)
      (load_review_hashes sha256) review_keyOk
      (generate_review_hash sha256) review_row_data
      (append_review_gate_skip sha256) (append_review_gate_dup sha256)
      (append_review_gate_app sha256)
      (load_review_hashes_mono sha256) reviewRecords
      (fun st d _ hne hk => review_hash_mem_load sha256 st d hne hk)
      rstore hr
    unfold reviews_append_pass
    rw [hidem]
  · have hidem := passFold_idem
      (fun st rec seen => reviewsz_gate sha256 true st rec.1 rec.2 seen)
      (reviewsz_load sha256) rvz_keyOk
      (fun rec => generate_order_hash sha256 (pstrip rec.2.order_id))
      (fun rec => push_to_sheet_row rec.1 rec.2)
      (reviewsz_gate_skip sha256) (reviewsz_gate_dup sha256)
      (reviewsz_gate_app sha256)
      (reviewsz_load_mono sha256) rvzRecords
      (fun st rec hmem hne hk => rvz_hash_mem_load sha256 st rec (hfix rec hmem) hne hk)
      zstore hz
    unfold reviewsz_append_pass
    rw [hidem]

/-- C1 witness: the idempotence theorem applied to concrete stores and
record sets for all four deduplicating writers. -/
theorem C1_append_pass_idempotent_witness :
    complaints_append_pass idHash [[("Complaint ID", "778899"), ("Reason", "Late")]]
        (complaints_append_pass idHash
          [[("Complaint ID", "778899"), ("Reason", "Late")]] [hdrRow])
      = complaints_append_pass idHash
          [[("Complaint ID", "778899"), ("Reason", "Late")]] [hdrRow] ∧
    reviews_append_pass idHash [[("Order ID", "A1")]]
        (reviews_append_pass idHash [[("Order ID", "A1")]] [hdrRow])
      = reviews_append_pass idHash [[("Order ID", "A1")]] [hdrRow] ∧
    reviewsz_append_pass idHash [("57750", sampleRvzData)]
        (reviewsz_append_pass idHash [("57750", sampleRvzData)] [hdrRow])
      = reviewsz_append_pass idHash [("57750", sampleRvzData)] [hdrRow] ∧
    push_to_google_sheet [["19595894", "C123", "UNRESOLVED"]]
        (push_to_google_sheet [["19595894", "C123", "UNRESOLVED"]] [hdrRow])
      = push_to_google_sheet [["19595894", "C123", "UNRESOLVED"]] [hdrRow] :=
  C1_append_pass_idempotent idHash
    [[("Complaint ID", "778899"), ("Reason", "Late")]] [[("Order ID", "A1")]]
    [("57750", sampleRvzData)] [["19595894", "C123", "UNRESOLVED"]]
    [hdrRow] [hdrRow] [hdrRow] [hdrRow]
    (List.cons_ne_nil _ _) (List.cons_ne_nil _ _) (List.cons_ne_nil _ _)
    (List.cons_ne_nil _ _)
    (by
      intro rec hrec
      rw [List.mem_singleton] at hrec
      subst hrec
      decide)

/-- C1 counterexample: the Swiggy dashboard-metrics writer is not
idempotent — running the same one-metric pass twice against the same
initial store appends the row twice (the claim, as stated over *every*
scraper variant, is false). -/
theorem C1_counterexample :
    swiggy_write_metrics "01-01-2025" "123" [("Delivered Orders", "5")]
        (swiggy_write_metrics "01-01-2025" "123" [("Delivered Orders", "5")] [hdrCells])
      ≠ swiggy_write_metrics "01-01-2025" "123" [("Delivered Orders", "5")] [hdrCells] := by
  decide

/- ------------------------------------------------------------------ -/
/- Claims C2, C3, C4                                                   -/
/- ------------------------------------------------------------------ -/

/-- C2.  For every candidate record (with its natural key present)
whose digest is already in the DedupIndex, the Append Gate — in both
the complaints and the reviews variant, and whether or not the store
would accept a write — skips the record: it logs the duplicate branch,
leaves the store untouched (no append call) and leaves the index
unmutated. -/
theorem C2_duplicate_skipped (sha256 : String → String) (appendOk : Bool)
    (st : List (List String)) (c d : List (String × String)) (seen : List String)
    (hc : pstrip (dget c "Complaint ID") ≠ "")
    (hcm : generate_complaint_hash sha256 c ∈ seen)
    (hd : pstrip (dget d "Order ID") ≠ "")
    (hdm : generate_review_hash sha256 d ∈ seen) :
    append_complaint_to_sheet sha256 appendOk st c seen = (st, seen, .duplicate) ∧
    append_to_sheet sha256 appendOk st d seen = (st, seen, .duplicate) := by
  constructor
  · simp [append_complaint_to_sheet, hc, hcm]
  · simp [append_to_sheet, hd, hdm]

/-- C2 witness: scenario A — the store already knows complaint ID
`"778899"`; a new record with the same ID and different other fields is
skipped and the store and index are unchanged. -/
theorem C2_duplicate_skipped_witness :
    append_complaint_to_sheet idHash true [hdrRow]
        [("Complaint ID", "778899"), ("Reason", "Other reason")] ["778899", "A1"]
      = ([hdrRow], ["778899", "A1"], .duplicate) ∧
    append_to_sheet idHash true [hdrRow] [("Order ID", "A1")] ["778899", "A1"]
      = ([hdrRow], ["778899", "A1"], .duplicate) :=
  C2_duplicate_skipped idHash true [hdrRow]
    [("Complaint ID", "778899"), ("Reason", "Other reason")] [("Order ID", "A1")]
    ["778899", "A1"] (by decide) (by decide) (by decide) (by decide)

/-- C3.  For every accepted record, the digest enters the DedupIndex
only after the store append returns: a failing `append_row` leaves
both the store and the index unchanged (the exception is caught after
the append and before the index insertion), so on a retry the record
is not mistaken for a duplicate of itself — the successful retry
appends the record exactly once and only then inserts the digest.
Stated for both the complaints and the reviews gate. -/
theorem C3_index_after_write (sha256 : String → String)
    (st : List (List String)) (c d : List (String × String)) (seen : List String)
    (hc : pstrip (dget c "Complaint ID") ≠ "")
    (hcm : generate_complaint_hash sha256 c ∉ seen)
    (hd : pstrip (dget d "Order ID") ≠ "")
    (hdm : generate_review_hash sha256 d ∉ seen) :
    (append_complaint_to_sheet sha256 false st c seen = (st, seen, .writeFailed) ∧
     append_complaint_to_sheet sha256 true st c seen
       = (st ++ [complaint_row_data c],
          generate_complaint_hash sha256 c :: seen, .appended) ∧
     (st ++ [complaint_row_data c]).count (complaint_row_data c)
       = st.count (complaint_row_data c) + 1) ∧
    (append_to_sheet sha256 false st d seen = (st, seen, .writeFailed) ∧
     append_to_sheet sha256 true st d seen
       = (st ++ [review_row_data d],
          generate_review_hash sha256 d :: seen, .appended) ∧
     (st ++ [review_row_data d]).count (review_row_data d)
       = st.count (review_row_data d) + 1) := by
  refine ⟨⟨?_, ?_, ?_⟩, ?_, ?_, ?_⟩
  · simp [append_complaint_to_sheet, hc, hcm]
  · simp [append_complaint_to_sheet, hc, hcm]
  · simp
  · simp [append_to_sheet, hd, hdm]
  · simp [append_to_sheet, hd, hdm]
  · simp

/-- C3 witness: scenario E at a concrete record — the first attempt
fails and changes nothing; the retry appends once and indexes the
digest. -/
theorem C3_index_after_write_witness :
    (append_complaint_to_sheet idHash false [hdrRow]
        [("Complaint ID", "778899")] [] = ([hdrRow], [], .writeFailed) ∧
     append_complaint_to_sheet idHash true [hdrRow]
        [("Complaint ID", "778899")] []
       = ([hdrRow] ++ [complaint_row_data [("Complaint ID", "778899")]],
          generate_complaint_hash idHash [("Complaint ID", "778899")] :: [], .appended) ∧
     ([hdrRow] ++ [complaint_row_data [("Complaint ID", "778899")]]).count
         (complaint_row_data [("Complaint ID", "778899")])
       = [hdrRow].count (complaint_row_data [("Complaint ID", "778899")]) + 1) ∧
    (append_to_sheet idHash false [hdrRow] [("Order ID", "A1")] []
       = ([hdrRow], [], .writeFailed) ∧
     append_to_sheet idHash true [hdrRow] [("Order ID", "A1")] []
       = ([hdrRow] ++ [review_row_data [("Order ID", "A1")]],
          generate_review_hash idHash [("Order ID", "A1")] :: [], .appended) ∧
     ([hdrRow] ++ [review_row_data [("Order ID", "A1")]]).count
         (review_row_data [("Order ID", "A1")])
       = [hdrRow].count (review_row_data [("Order ID", "A1")]) + 1) :=
  C3_index_after_write idHash [hdrRow]
    [("Complaint ID", "778899")] [("Order ID", "A1")] []
    (by decide) (by decide) (by decide) (by decide)

/-- C4.  A record whose natural key (after stripping) is empty is
rejected up front, in both gates: the warning branch is taken, the
store and the index are unchanged, and no digest is computed — the
gate's behaviour does not depend on the digest function at all on this
path. -/
theorem C4_empty_key_rejected (sha256 sha256' : String → String) (appendOk : Bool)
    (st : List (List String)) (c d : List (String × String)) (seen : List String)
    (hc : pstrip (dget c "Complaint ID") = "")
    (hd : pstrip (dget d "Order ID") = "") :
    (append_complaint_to_sheet sha256 appendOk st c seen
       = (st, seen, .rejectedEmptyKey) ∧
     append_complaint_to_sheet sha256 appendOk st c seen
       = append_complaint_to_sheet sha256' appendOk st c seen) ∧
    (append_to_sheet sha256 appendOk st d seen = (st, seen, .rejectedEmptyKey) ∧
     append_to_sheet sha256 appendOk st d seen
       = append_to_sheet sha256' appendOk st d seen) := by
  refine ⟨⟨?_, ?_⟩, ?_, ?_⟩
  · simp [append_complaint_to_sheet, hc]
  · simp [append_complaint_to_sheet, hc]
  · simp [append_to_sheet, hd]
  · simp [append_to_sheet, hd]

/-- C4 witness: scenario C — a record with complaint ID `""` (and a
review with order ID `""`) is rejected before hashing; the store and
index are unchanged. -/
theorem C4_empty_key_rejected_witness :
    (append_complaint_to_sheet idHash true [hdrRow]
        [("Complaint ID", ""), ("Reason", "Late")] []
       = ([hdrRow], [], .rejectedEmptyKey) ∧
     append_complaint_to_sheet idHash true [hdrRow]
        [("Complaint ID", ""), ("Reason", "Late")] []
       = append_complaint_to_sheet (fun s => s ++ "x") true [hdrRow]
          [("Complaint ID", ""), ("Reason", "Late")] []) ∧
    (append_to_sheet idHash true [hdrRow] [("Order ID", "")] []
       = ([hdrRow], [], .rejectedEmptyKey) ∧
     append_to_sheet idHash true [hdrRow] [("Order ID", "")] []
       = append_to_sheet (fun s => s ++ "x") true [hdrRow] [("Order ID", "")] []) :=
  C4_empty_key_rejected idHash (fun s => s ++ "x") true [hdrRow]
    [("Complaint ID", ""), ("Reason", "Late")] [("Order ID", "")] []
    (by decide) (by decide)

/- ------------------------------------------------------------------ -/
/- Facts about the Record Normalizer                                   -/
/- ------------------------------------------------------------------ -/

theorem string_mk_data (l : List Char) : (⟨l⟩ : String).data = l := rfl

/-- `convert_value_try` seen through `residue`. -/
theorem convert_value_try_eq (s : String) :
    convert_value_try s =
      if ('.' : Char) ∈ residue s then
        match pyFloatOfDigitsDot? ⟨residue s⟩ with
        | some q => .ok (.f q)
        | none => .exn
      else if (⟨residue s⟩ : String) ≠ "" then
        match pyIntOfDigits? ⟨residue s⟩ with
        | some n => .ok (.i n)
        | none => .exn
      else .ok .NA := rfl

theorem pyFloatOfDigitsDot_mk (l : List Char) :
    pyFloatOfDigitsDot? ⟨l⟩ =
      if l.any Char.isDigit && l.count '.' ≤ 1
          && l.all (fun c => c.isDigit || c = '.') then
        some (ratOfDigitsDot l)
      else none := rfl

theorem pyIntOfDigits_mk (l : List Char) :
    pyIntOfDigits? ⟨l⟩ =
      if (⟨l⟩ : String) ≠ "" && l.all Char.isDigit then some (digitsVal l : Int)
      else none := rfl

theorem residue_all (s : String) :
    (residue s).all (fun c => c.isDigit || c = '.') = true := by
  rw [List.all_eq_true]
  intro c hc
  rw [residue] at hc
  exact (List.mem_filter.mp hc).2

theorem residue_any_digit (s : String) (h : hasDigit s = true) :
    (residue s).any Char.isDigit = true := by
  rw [hasDigit, List.any_eq_true] at h
  obtain ⟨c, hc, hd⟩ := h
  rw [List.any_eq_true]
  exact ⟨c, List.mem_filter.mpr ⟨hc, by simp [hd]⟩, hd⟩

theorem residue_dot_of_no_digit (s : String) (h : hasDigit s = false) :
    ∀ c ∈ residue s, c = '.' := by
  intro c hc
  have h1 := List.mem_filter.mp hc
  have hnd : ¬(c.isDigit = true) := by
    intro hd
    rw [hasDigit] at h
    have : s.data.any Char.isDigit = true := List.any_eq_true.mpr ⟨c, h1.1, hd⟩
    rw [h] at this
    cases this
  have h2 := h1.2
  simp only [Bool.or_eq_true, decide_eq_true_eq] at h2
  rcases h2 with h2 | h2
  · exact absurd h2 hnd
  · exact h2

/-- If the raw value has no ASCII digit at all, `convert_value`
returns the missing sentinel. -/
theorem convert_value_of_no_digit (s : String) (h : hasDigit s = false) :
    convert_value s = .NA := by
  by_cases hna : s = "N/A" ∨ s = ""
  · simp [convert_value, hna]
  · rw [convert_value, if_neg hna, convert_value_try_eq]
    by_cases hdot : ('.' : Char) ∈ residue s
    · rw [if_pos hdot, pyFloatOfDigitsDot_mk]
      have hany : (residue s).any Char.isDigit = false := by
        rw [List.any_eq_false]
        intro c hc
        rw [residue_dot_of_no_digit s h c hc]
        decide
      rw [if_neg (by simp [hany])]
    · have hempty : residue s = [] := by
        cases hr : residue s with
        | nil => rfl
        | cons c cs =>
          exfalso
          apply hdot
          rw [hr]
          have : c = '.' := residue_dot_of_no_digit s h c (by rw [hr]; simp)
          rw [this]
          simp
      rw [if_neg hdot, hempty]
      simp

/-- If the raw value has a digit and its residue has exactly one dot,
`convert_value` parses it as a float. -/
theorem convert_value_one_dot (s : String) (h : hasDigit s = true)
    (hdot : (residue s).count '.' = 1) :
    convert_value s = .f (ratOfDigitsDot (residue s)) := by
  have hna : ¬(s = "N/A" ∨ s = "") := by
    rintro (rfl | rfl) <;> cases h
  have hmem : ('.' : Char) ∈ residue s := by
    rw [← List.count_pos_iff]
    omega
  rw [convert_value, if_neg hna, convert_value_try_eq, if_pos hmem,
    pyFloatOfDigitsDot_mk]
  rw [if_pos (by simp [residue_any_digit s h, residue_all s, hdot])]

/-- If the raw value has a digit and its residue has no dot,
`convert_value` parses it as an integer. -/
theorem convert_value_no_dot (s : String) (h : hasDigit s = true)
    (hdot : (residue s).count '.' = 0) :
    convert_value s = .i (digitsVal (residue s)) := by
  have hna : ¬(s = "N/A" ∨ s = "") := by
    rintro (rfl | rfl) <;> cases h
  have hmem : ('.' : Char) ∉ residue s := by
    rw [← List.count_eq_zero]
    exact hdot
  have hne : residue s ≠ [] := by
    intro hcon
    have := residue_any_digit s h
    rw [hcon] at this
    cases this
  have halld : (residue s).all Char.isDigit = true := by
    rw [List.all_eq_true]
    intro c hc
    have h1 := List.of_mem_filter hc
    simp only [Bool.or_eq_true, decide_eq_true_eq] at h1
    rcases h1 with h1 | h1
    · exact h1
    · exact absurd (h1 ▸ hc) hmem
  have hnestr : (⟨residue s⟩ : String) ≠ "" := by
    intro hcon
    apply hne
    have : (⟨residue s⟩ : String).data = ("" : String).data := by rw [hcon]
    simpa using this
  rw [convert_value, if_neg hna, convert_value_try_eq, if_neg hmem,
    if_pos hnestr, pyIntOfDigits_mk]
  rw [if_pos (by simp only [Bool.and_eq_true, decide_eq_true_eq]; exact ⟨hnestr, halld⟩)]

/-- If the residue has two or more dots, the float parse raises and
the exception handler returns the missing sentinel. -/
theorem convert_value_multi_dot (s : String) (hdot : 2 ≤ (residue s).count '.') :
    convert_value s = .NA := by
  have hna : ¬(s = "N/A" ∨ s = "") := by
    rintro (rfl | rfl) <;> simp [residue] at hdot
  have hmem : ('.' : Char) ∈ residue s := by
    rw [← List.count_pos_iff]
    omega
  rw [convert_value, if_neg hna, convert_value_try_eq, if_pos hmem,
    pyFloatOfDigitsDot_mk]
  rw [if_neg (by simp; omega)]

/- ------------------------------------------------------------------ -/
/- Claims C5, C6                                                       -/
/- ------------------------------------------------------------------ -/

/-- C5 (amended).  The Record Normalizer maps the empty string, the
missing-sentinel `"N/A"` in any letter case, and any string with no
ASCII digit to the missing marker; a string with a digit whose residue
(after stripping all characters other than digits and dots) has
exactly one dot parses as a float of that residue; a residue with no
dot parses as an integer; but — correcting the claim's "otherwise to
Integer" — a residue with **two or more dots** yields the missing
marker (the float parse raises and is caught), not an integer. -/
theorem C5_normalizer (s : String) :
    ((s = "" ∨ s = "N/A" ∨ s = "N/a" ∨ s = "n/A" ∨ s = "n/a" ∨ hasDigit s = false) →
      convert_value s = .NA) ∧
    (hasDigit s = true → (residue s).count '.' = 1 →
      convert_value s = .f (ratOfDigitsDot (residue s))) ∧
    (hasDigit s = true → (residue s).count '.' = 0 →
      convert_value s = .i (digitsVal (residue s))) ∧
    (2 ≤ (residue s).count '.' → convert_value s = .NA) := by
  refine ⟨?_, convert_value_one_dot s, convert_value_no_dot s, convert_value_multi_dot s⟩
  rintro (rfl | rfl | rfl | rfl | rfl | h)
  · decide
  · decide
  · decide
  · decide
  · decide
  · exact convert_value_of_no_digit s h

/-- C5 counterexample: on `"1.2.3"` (digits present, two dots in the
residue) the code returns the missing marker, not an integer as the
claim's "otherwise maps to Integer" clause states. -/
theorem C5_counterexample :
    convert_value "1.2.3" = PyNum.NA ∧ convert_value "1.2.3" ≠ PyNum.i 123 := by
  decide

/-- C5 witness: the amended normalizer law at the claim's own boundary
examples. -/
theorem C5_normalizer_witness :
    convert_value "" = PyNum.NA ∧ convert_value "n/A" = PyNum.NA ∧
    convert_value "no digits here" = PyNum.NA ∧
    convert_value "12.5" = PyNum.f (25 / 2) ∧
    convert_value "85.0%" = PyNum.f 85 ∧
    convert_value "1,234" = PyNum.i 1234 ∧
    convert_value "₹9,600" = PyNum.i 9600 :=
  ⟨(C5_normalizer "").1 (Or.inl rfl),
   (C5_normalizer "n/A").1 (Or.inr (Or.inr (Or.inr (Or.inl rfl)))),
   (C5_normalizer "no digits here").1
     (Or.inr (Or.inr (Or.inr (Or.inr (Or.inr (by decide)))))),
   ((C5_normalizer "12.5").2.1 (by decide) (by decide)).trans (by
      simp +decide [residue, ratOfDigitsDot, intFracSplit, digitsVal]
      norm_num),
   ((C5_normalizer "85.0%").2.1 (by decide) (by decide)).trans (by
      simp +decide [residue, ratOfDigitsDot, intFracSplit, digitsVal]),
   ((C5_normalizer "1,234").2.2.1 (by decide) (by decide)).trans (by decide),
   ((C5_normalizer "₹9,600").2.2.1 (by decide) (by decide)).trans (by decide)⟩

/-- C6.  The Record Normalizer never propagates a parse exception: on
every input whose numeric parse inside the `try` block raises
(`convert_value_try val = .exn`, e.g. with multiple decimal points),
`convert_value` returns the missing marker instead, so a malformed
field cannot abort the batch. -/
theorem C6_normalizer_catches (val : String)
    (h : convert_value_try val = PyExc.exn) :
    convert_value val = PyNum.NA := by
  rw [convert_value]
  split
  · rfl
  · rw [h]

/-- C6 witness: `"1.2.3"` makes the parse raise, and `convert_value`
returns the missing marker. -/
theorem C6_normalizer_catches_witness :
    convert_value_try "1.2.3" = PyExc.exn ∧ convert_value "1.2.3" = PyNum.NA :=
  ⟨by decide, C6_normalizer_catches "1.2.3" (by decide)⟩

/- ------------------------------------------------------------------ -/
/- Claim C7                                                            -/
/- ------------------------------------------------------------------ -/

/-- C7 (amended).  Both Existing-Key Index Loaders skip the header row
(the result does not depend on it).  A short row is tolerated when the
key column is present: a 5-column complaint row (timestamp column
missing) and a 1-column review row still produce a digest, with the
missing timestamp read as `""`.  But — correcting the claim — a row so
short that the key column itself is missing produces **no** digest and
is dropped: the complaints loader skips every row with at most 4
columns. -/
theorem C7_loader_short_rows (sha256 : String → String)
    (hdr hdr2 row : List String) (rows : List (List String))
    (a b c d e oid : String)
    (he : pstrip e ≠ "") (hoid : pstrip oid ≠ "") (hshort : row.length ≤ 4) :
    (load_complaint_hashes sha256 (hdr :: rows)
       = load_complaint_hashes sha256 (hdr2 :: rows)) ∧
    (load_review_hashes sha256 (hdr :: rows)
       = load_review_hashes sha256 (hdr2 :: rows)) ∧
    (load_complaint_hashes sha256 [hdr, [a, b, c, d, e]]
       = [generate_complaint_hash sha256
            [("Complaint ID", pstrip e), ("Timestamp", "")]]) ∧
    (load_review_hashes sha256 [hdr, [oid]]
       = [generate_review_hash sha256 [("Order ID", pstrip oid), ("Timestamp", "")]]) ∧
    (load_complaint_hashes sha256 [hdr, row] = []) := by
  refine ⟨rfl, rfl, ?_, ?_, ?_⟩
  · simp [load_complaint_hashes, complaint_row_hash?, List.filterMap_cons, List.getD, he]
  · have h0 : pstrip "" = "" := rfl
    simp [load_review_hashes, review_row_hash?, List.filterMap_cons, List.getD, h0, hoid]
  · have : ¬(row.length > 4) := by omega
    simp [load_complaint_hashes, complaint_row_hash?, List.filterMap_cons, this]

/-- C7 witness: the loader law at concrete rows — a 5-column complaint
row and a 1-column review row still yield digests, a 3-column row is
dropped. -/
theorem C7_loader_short_rows_witness :
    (load_complaint_hashes idHash (["h1"] :: [])
       = load_complaint_hashes idHash (["h2"] :: [])) ∧
    (load_review_hashes idHash (["h1"] :: [])
       = load_review_hashes idHash (["h2"] :: [])) ∧
    (load_complaint_hashes idHash [["h1"], ["A", "B", "C", "D", " 778899 "]]
       = [generate_complaint_hash idHash
            [("Complaint ID", pstrip " 778899 "), ("Timestamp", "")]]) ∧
    (load_review_hashes idHash [["h1"], ["A1"]]
       = [generate_review_hash idHash [("Order ID", pstrip "A1"), ("Timestamp", "")]]) ∧
    (load_complaint_hashes idHash [["h1"], ["only", "three", "cols"]] = []) :=
  C7_loader_short_rows idHash ["h1"] ["h2"] ["only", "three", "cols"] []
    "A" "B" "C" "D" " 778899 " "A1" (by decide) (by decide) (by decide)

/-- C7 counterexample: a 4-column row whose fields are all non-empty is
dropped outright by the complaints loader — no digest is produced for
it, contradicting "still produces a digest for that row's key rather
than failing or dropping the row". -/
theorem C7_counterexample :
    load_complaint_hashes idHash
        [hdrRow, ["19595894", "Late delivery", "OPEN", "100"]] = [] := by
  decide

/- ------------------------------------------------------------------ -/
/- Claim C8                                                            -/
/- ------------------------------------------------------------------ -/

/-- C8 (amended).  The complaints run does fail fast: a store error in
`init_gsheet` is re-raised and the run stops before any scraping, with
no baseline.  But — correcting the claim — the reviewsz loader
`get_existing_order_hashes` catches a store error and returns the
**empty index**, and the run then proceeds: a review whose order ID is
already persisted is pushed again (duplicate reintroduced), whereas
with a readable store it would have been skipped. -/
theorem C8_store_error_baseline (sha256 : String → String) (oid : String)
    (hs : pstrip oid = oid) (hne : oid ≠ "") :
    complaints_run_baseline sha256 (.error ()) = .error () ∧
    get_existing_order_hashes sha256 (.error ()) = [] ∧
    reviewsz_review_action sha256 oid
        (get_existing_order_hashes sha256 (.error ())) = .pushed ∧
    reviewsz_review_action sha256 oid
        (get_existing_order_hashes sha256 (.ok ["Order ID", oid])) = .skippedDup := by
  refine ⟨rfl, rfl, ?_, ?_⟩
  · simp [reviewsz_review_action, get_existing_order_hashes, hs, hne]
  · simp [reviewsz_review_action, get_existing_order_hashes, hs, hne,
      generate_order_hash, List.filterMap_cons]

/-- C8 witness: the baseline law at a concrete order ID. -/
theorem C8_store_error_baseline_witness :
    complaints_run_baseline idHash (.error ()) = .error () ∧
    get_existing_order_hashes idHash (.error ()) = [] ∧
    reviewsz_review_action idHash "X1"
        (get_existing_order_hashes idHash (.error ())) = .pushed ∧
    reviewsz_review_action idHash "X1"
        (get_existing_order_hashes idHash (.ok ["Order ID", "X1"])) = .skippedDup :=
  C8_store_error_baseline idHash "X1" (by decide) (by decide)

/-- C8 counterexample: with the store unreachable, the reviewsz loader
returns the empty index instead of failing, and the run proceeds to
push a review whose order ID the store already contains — the claim's
"fails fast … never continues with an empty index" is false for this
loader. -/
theorem C8_counterexample :
    get_existing_order_hashes idHash (Except.error ()) = [] ∧
    reviewsz_review_action idHash "X1"
        (get_existing_order_hashes idHash (Except.error ())) = RvzAction.pushed := by
  decide

/- ------------------------------------------------------------------ -/
/- Claim C9                                                            -/
/- ------------------------------------------------------------------ -/

/-- C9 (amended).  Both modelled callers strip the code-fence markers
before JSON parsing (the parser is consulted exactly on the cleaned
text).  On a JSON parse failure or an unavailable service, the Swiggy
metrics extractor falls back to the fixed-pattern (regex) extractor on
the same page text; but — correcting the claim — the complaints parser
`parse_complaint_with_gemini` has **no** regex fallback and returns no
record (`None`) in both failure cases. -/
theorem C9_fallback_behaviour
    (jsonParse : String → Option (List (String × String)))
    (regexExtract : String → List (String × String))
    (service : String → Except Unit String) (text resp : String)
    (metrics parsed : List (String × String)) :
    (service text = .error () →
      extract_all_metrics_with_gemini jsonParse regexExtract service text
        = regexExtract text) ∧
    (service text = .ok resp → jsonParse (swiggy_clean_response resp) = none →
      extract_all_metrics_with_gemini jsonParse regexExtract service text
        = regexExtract text) ∧
    (service text = .ok resp → jsonParse (swiggy_clean_response resp) = some metrics →
      extract_all_metrics_with_gemini jsonParse regexExtract service text = metrics) ∧
    (∀ outlet_id, parse_complaint_with_gemini jsonParse (.error ()) outlet_id = none) ∧
    (∀ outlet_id, jsonParse (complaintsz_clean_response (pstrip resp)) = none →
      parse_complaint_with_gemini jsonParse (.ok resp) outlet_id = none) ∧
    (∀ outlet_id, jsonParse (complaintsz_clean_response (pstrip resp)) = some parsed →
      parse_complaint_with_gemini jsonParse (.ok resp) outlet_id
        = some (dset parsed "Outlet ID" outlet_id)) := by
  refine ⟨?_, ?_, ?_, ?_, ?_, ?_⟩
  · intro h; simp [extract_all_metrics_with_gemini, h]
  · intro h hp; simp [extract_all_metrics_with_gemini, h, hp]
  · intro h hp; simp [extract_all_metrics_with_gemini, h, hp]
  · intro oid; rfl
  · intro oid hp; simp [parse_complaint_with_gemini, hp]
  · intro oid hp; simp [parse_complaint_with_gemini, hp]

/-- C9 witness: the fallback law at concrete parse/service instances —
an unavailable service and an unparsable response both make the Swiggy
extractor fall back to the regex extractor, while the complaints
parser yields no record. -/
theorem C9_fallback_behaviour_witness :
    extract_all_metrics_with_gemini failParse constRegexExtract
        (fun _ => Except.error ()) "page" = constRegexExtract "page" ∧
    extract_all_metrics_with_gemini failParse constRegexExtract
        (fun _ => Except.ok "resp") "page" = constRegexExtract "page" ∧
    parse_complaint_with_gemini failParse (Except.error ()) "19595894" = none :=
  ⟨(C9_fallback_behaviour failParse constRegexExtract
      (fun _ => Except.error ()) "page" "resp" [] []).1 rfl,
   (C9_fallback_behaviour failParse constRegexExtract
      (fun _ => Except.ok "resp") "page" "resp" [] []).2.1 rfl rfl,
   (C9_fallback_behaviour failParse constRegexExtract
      (fun _ => Except.error ()) "page" "resp" [] []).2.2.2.1 "19595894"⟩

/-- C9 counterexample: the complaints caller, on a response that fails
JSON parsing (and likewise on an unavailable service), produces no
record at all — it does not fall back to a regex extractor as the
claim states for every caller. -/
theorem C9_counterexample :
    parse_complaint_with_gemini failParse (Except.ok "not json") "19595894" = none ∧
    parse_complaint_with_gemini failParse (Except.error ()) "19595894" = none := by
  decide

/- ------------------------------------------------------------------ -/
/- Claim C10                                                           -/
/- ------------------------------------------------------------------ -/

/-- C10 (amended).  The Swiggy dashboard-metrics writer issues no
append for a metric whose extracted raw value equals `"N/A"`; but —
correcting the claim — it is not true that it never appends a row
whose value field is the missing sentinel: a raw value other than
`"N/A"` that normalizes to the missing marker (e.g. one with no
digits) is appended as a `"N/A"`-valued row.  The Zomato writer
appends the literal sentinels `"N/A"` and `"Not found"` as values. -/
theorem C10_sentinel_rows (formatted_date rid label raw_value : String)
    (report_date_label outlet_id metric : String) (n m : Int)
    (sheet zsheet : List (List Cell))
    (hrid : pyIntOfString? rid = some n)
    (hraw : raw_value ≠ "N/A") (hconv : convert_value raw_value = .NA)
    (hoid : pyIntOfString? outlet_id = some m) :
    swiggy_metric_step formatted_date rid label "N/A" sheet = sheet ∧
    swiggy_metric_step formatted_date rid label raw_value sheet
      = sheet ++ [[Cell.s formatted_date, Cell.i n, Cell.s label,
                   Cell.s "N/A", Cell.s "Swiggy"]] ∧
    zomato_metric_step report_date_label outlet_id metric "N/A" zsheet
      = zsheet ++ [[Cell.s report_date_label, Cell.i m, Cell.s metric,
                    Cell.s "N/A", Cell.s "Zomato"]] ∧
    zomato_metric_step report_date_label outlet_id metric "Not found" zsheet
      = zsheet ++ [[Cell.s report_date_label, Cell.i m, Cell.s metric,
                    Cell.s "Not found", Cell.s "Zomato"]] := by
  refine ⟨?_, ?_, ?_, ?_⟩
  · simp [swiggy_metric_step]
  · simp [swiggy_metric_step, hraw, hrid, hconv, cellOfPyNum]
  · simp [zomato_metric_step, hoid]
  · simp [zomato_metric_step, hoid]

/-- C10 witness: the sentinel law at concrete inputs — raw `"N/A"` is
not written; raw `"abc"` (no digits) is written as an `"N/A"` row; the
Zomato writer writes both sentinels literally. -/
theorem C10_sentinel_rows_witness :
    swiggy_metric_step "01-01-2025" "123" "Impressions" "N/A" [hdrCells] = [hdrCells] ∧
    swiggy_metric_step "01-01-2025" "123" "Impressions" "abc" [hdrCells]
      = [hdrCells] ++ [[Cell.s "01-01-2025", Cell.i 123, Cell.s "Impressions",
                        Cell.s "N/A", Cell.s "Swiggy"]] ∧
    zomato_metric_step "July 1" "57750" "Delivered orders" "N/A" [hdrCells]
      = [hdrCells] ++ [[Cell.s "July 1", Cell.i 57750, Cell.s "Delivered orders",
                        Cell.s "N/A", Cell.s "Zomato"]] ∧
    zomato_metric_step "July 1" "57750" "Delivered orders" "Not found" [hdrCells]
      = [hdrCells] ++ [[Cell.s "July 1", Cell.i 57750, Cell.s "Delivered orders",
                        Cell.s "Not found", Cell.s "Zomato"]] :=
  C10_sentinel_rows "01-01-2025" "123" "Impressions" "abc" "July 1" "57750"
    "Delivered orders" 123 57750 [hdrCells] [hdrCells]
    (by decide) (by decide) (by decide) (by decide)

/-- C10 counterexample: the Swiggy writer appends a row whose value
field is the missing sentinel — the raw value `"abc"` is not `"N/A"`,
so the gate lets it through, and `convert_value` turns it into the
`"N/A"` string in the written row. -/
theorem C10_counterexample :
    swiggy_write_metrics "01-01-2025" "123" [("Impressions", "abc")] [hdrCells]
      = [hdrCells,
         [Cell.s "01-01-2025", Cell.i 123, Cell.s "Impressions",
          Cell.s "N/A", Cell.s "Swiggy"]] := by
  decide
